import Mathlib

/-!
# sequence-diagrams: a shallow embedding of `diagram.go` and `web_sequence_diagram.go`

Modelling conventions.

* Go `string` and `[]byte` values are Lean `String`s (the text they hold).
* A Go function returning `(T, error)` returns a pair `T × Option GoError`; `none` is the
  `nil` error.  A call that can also panic returns an `Outcome`.
* A pointer receiver whose fields are updated becomes explicit state passing: the operation
  returns the updated value.  Distinct events are taken to hold distinct request, response and
  body objects (no aliasing between events).
* `int` values that are data (`StatusCode`) are `Int`.  The row counter of
  `WebSequenceDiagram` is a `Nat`: every row appends at least eight bytes to the buffer, and a
  `bytes.Buffer` cannot hold `2^63` bytes, so the counter never wraps.
* Functions of the Go standard library that the code calls (`httputil.DumpRequestOut`,
  `httputil.DumpResponse`, `json.Indent`) are parameters, collected in `Lib`; `Json.Indent`
  is a concrete rendition of `json.Indent` used to evaluate the code on concrete inputs.
  The page template `t`, declared outside the two files, and the template engine that
  `RenderHTML` runs are the parameter `PageTemplate`.
* A library call is taken to return.  A call that panics instead, as
  `httputil.DumpRequestOut` does on a request whose `URL` is nil, has no counterpart here:
  every result that concludes that a diagram holding HTTP events is built assumes that the
  header dump of each of them succeeds.
-/

set_option autoImplicit false

namespace Sequence

/-! ## Errors and outcomes -/

/-- Go `error` values that the package creates or passes on. -/
inductive GoError where
  /-- The value of `errors.New(text)`. -/
  | errorsNew (text : String)
  /-- A `*json.SyntaxError`: the offending byte (absent at end of input), the context in
  which it was met and the number of bytes scanned. -/
  | jsonSyntax (byte : Option Char) (context : String) (offset : Nat)
  /-- Any other error produced by a library call (a failed read, a failed header dump). -/
  | library (text : String)
  deriving DecidableEq, Repr

/-- Result of a call that either returns `(val, err)` or panics. -/
inductive Outcome (α : Type) where
  | returned (val : α) (err : Option GoError)
  | panicked (reason : String)
  deriving DecidableEq, Repr

/-- Panic text of the runtime for a nil pointer dereference. -/
def nilDereference : String :=
  "runtime error: invalid memory address or nil pointer dereference"

/-! ## Body streams -/

/-- An `io.ReadCloser`: the content not yet read, and the error (if any) that reading reports
in place of end-of-file once that content has been delivered. -/
structure ReadCloser where
  unread : String
  fault : Option GoError
  deriving DecidableEq, Repr

/-- The `ioutil.ReadAll` call: everything unread is returned, with the stream's fault as the
error; the stream is left drained. -/
def ReadAll (r : ReadCloser) : (String × Option GoError) × ReadCloser :=
  ((r.unread, r.fault), { r with unread := "" })

/-! ## Data model (`diagram.go`, lines 16-76) -/

/-- An `http.Header`: a map from canonical key to its values. -/
abbrev Header := List (String × List String)

/-- The `Header.Get` method: first value stored under `key`, or `""`. -/
def Header.Get (h : Header) (key : String) : String :=
  match h.lookup key with
  | some (v :: _) => v
  | _ => ""

/-- The fields of `http.Request` that the package reads; `URL` is the text `%s` prints.  A
request whose `URL` pointer is nil is not told apart from one whose `URL` prints the same
text. -/
structure Request where
  Method : String
  URL : String
  Header : Header
  Body : Option ReadCloser
  deriving DecidableEq, Repr

/-- The fields of `http.Response` that the package reads. -/
structure Response where
  StatusCode : Int
  Header : Header
  Body : Option ReadCloser
  deriving DecidableEq, Repr

structure LogEntry where
  Header : String
  Body : String
  deriving DecidableEq, Repr

structure MessageRequest where
  Source : String
  Target : String
  Header : String
  Body : String
  deriving DecidableEq, Repr

structure MessageResponse where
  Source : String
  Target : String
  Header : String
  Body : String
  deriving DecidableEq, Repr

/-- `Value` is a pointer: `none` is `nil`. -/
structure HttpRequest where
  Source : String
  Target : String
  Value : Option Request
  deriving DecidableEq, Repr

/-- `Value` is a pointer: `none` is `nil`. -/
structure HttpResponse where
  Source : String
  Target : String
  Value : Option Response
  deriving DecidableEq, Repr

/-- An element of `Events []interface{}`: one of the four event structs, or a value of any
other dynamic type (named by `typeName`). -/
inductive Event where
  | httpRequest (v : HttpRequest)
  | httpResponse (v : HttpResponse)
  | messageRequest (v : MessageRequest)
  | messageResponse (v : MessageResponse)
  | other (typeName : String)
  deriving DecidableEq, Repr

structure Diagram where
  Title : String
  SubTitle : String
  Events : List Event
  deriving DecidableEq, Repr

structure DiagramHtmlModel where
  WebSequenceDSL : String
  Title : String
  SubTitle : String
  BadgeClass : String
  StatusCode : Int
  LogEntries : List LogEntry
  deriving DecidableEq, Repr

/-- The zero value `LogEntry{}`. -/
def LogEntry.zero : LogEntry := ⟨"", ""⟩

/-- The zero value `DiagramHtmlModel{}`. -/
def DiagramHtmlModel.zero : DiagramHtmlModel := ⟨"", "", "", "", 0, []⟩

/-! ## `encoding/json`: the scanner and `Indent`

A rendition of the standard library's JSON scanner (`scanner.go`) and of `json.Indent`
(`indent.go`), byte for byte a state machine.  It is used where the code has to be evaluated
on a concrete body; the general results take `json.Indent` as a parameter. -/

namespace Json

/-- Return codes of a scanner step (`scanContinue` ... `scanError`). -/
inductive Scan where
  | scanContinue | scanBeginLiteral | scanBeginObject | scanObjectKey | scanObjectValue
  | scanEndObject | scanBeginArray | scanArrayValue | scanEndArray | scanSkipSpace
  | scanEnd | scanError
  deriving DecidableEq, Repr

/-- Entries of the parse-state stack. -/
inductive ParseState where
  | parseObjectKey | parseObjectValue | parseArrayValue
  deriving DecidableEq, Repr

/-- The step functions a scanner can be in (the value of its `step` field). -/
inductive Step where
  | stateBeginValueOrEmpty | stateBeginValue | stateBeginStringOrEmpty | stateBeginString
  | stateEndValue | stateEndTop | stateInString | stateInStringEsc | stateInStringEscU
  | stateInStringEscU1 | stateInStringEscU12 | stateInStringEscU123 | stateNeg | state1
  | state0 | stateDot | stateDot0 | stateE | stateESign | stateE0 | stateT | stateTr
  | stateTru | stateF | stateFa | stateFal | stateFals | stateN | stateNu | stateNul
  | stateError
  deriving DecidableEq, Repr

/-- The scanner; `parseState` is kept with its top of stack first. -/
structure scanner where
  step : Step
  endTop : Bool
  parseState : List ParseState
  err : Option GoError
  bytes : Nat
  deriving DecidableEq, Repr

def maxNestingDepth : Nat := 10000

/-- The scanner after `reset`. -/
def scanner.reset : scanner :=
  { step := .stateBeginValue, endTop := false, parseState := [], err := none, bytes := 0 }

/-- Records a syntax error (`scanner.error`). -/
def scanner.error (s : scanner) (c : Char) (context : String) : scanner × Scan :=
  ({ s with step := .stateError, err := some (.jsonSyntax (some c) context s.bytes) },
    .scanError)

def scanner.pushParseState (s : scanner) (c : Char) (newParseState : ParseState)
    (successState : Scan) : scanner × Scan :=
  let s := { s with parseState := newParseState :: s.parseState }
  if s.parseState.length ≤ maxNestingDepth then (s, successState)
  else s.error c "exceeded max depth"

def scanner.popParseState (s : scanner) : scanner :=
  let ps := s.parseState.tail
  if ps.length = 0 then { s with parseState := ps, step := .stateEndTop, endTop := true }
  else { s with parseState := ps, step := .stateEndValue }

/-- Replaces the top of the parse-state stack (`s.parseState[n-1] = p`). -/
def scanner.setTop (s : scanner) (p : ParseState) : scanner :=
  { s with parseState := p :: s.parseState.tail }

def isSpace (c : Char) : Bool :=
  c = ' ' || c = '\t' || c = '\r' || c = '\n'

def isDigit (c : Char) : Bool := '0' ≤ c && c ≤ '9'

def isHex (c : Char) : Bool :=
  isDigit c || ('a' ≤ c && c ≤ 'f') || ('A' ≤ c && c ≤ 'F')

def stateEndTop (s : scanner) (c : Char) : scanner × Scan :=
  if !isSpace c then ((s.error c "after top-level value").1, .scanEnd)
  else (s, .scanEnd)

def stateEndValue (s : scanner) (c : Char) : scanner × Scan :=
  match s.parseState with
  | [] => stateEndTop { s with step := .stateEndTop, endTop := true } c
  | ps :: _ =>
    if isSpace c then ({ s with step := .stateEndValue }, .scanSkipSpace)
    else
      match ps with
      | .parseObjectKey =>
        if c = ':' then
          ({ s.setTop .parseObjectValue with step := .stateBeginValue }, .scanObjectKey)
        else s.error c "after object key"
      | .parseObjectValue =>
        if c = ',' then
          ({ s.setTop .parseObjectKey with step := .stateBeginString }, .scanObjectValue)
        else if c = '}' then (s.popParseState, .scanEndObject)
        else s.error c "after object key:value pair"
      | .parseArrayValue =>
        if c = ',' then ({ s with step := .stateBeginValue }, .scanArrayValue)
        else if c = ']' then (s.popParseState, .scanEndArray)
        else s.error c "after array element"

def stateBeginValue (s : scanner) (c : Char) : scanner × Scan :=
  if isSpace c then (s, .scanSkipSpace)
  else if c = '{' then
    scanner.pushParseState { s with step := .stateBeginStringOrEmpty } c .parseObjectKey
      .scanBeginObject
  else if c = '[' then
    scanner.pushParseState { s with step := .stateBeginValueOrEmpty } c .parseArrayValue
      .scanBeginArray
  else if c = '"' then ({ s with step := .stateInString }, .scanBeginLiteral)
  else if c = '-' then ({ s with step := .stateNeg }, .scanBeginLiteral)
  else if c = '0' then ({ s with step := .state0 }, .scanBeginLiteral)
  else if c = 't' then ({ s with step := .stateT }, .scanBeginLiteral)
  else if c = 'f' then ({ s with step := .stateF }, .scanBeginLiteral)
  else if c = 'n' then ({ s with step := .stateN }, .scanBeginLiteral)
  else if '1' ≤ c && c ≤ '9' then ({ s with step := .state1 }, .scanBeginLiteral)
  else s.error c "looking for beginning of value"

def stateBeginValueOrEmpty (s : scanner) (c : Char) : scanner × Scan :=
  if isSpace c then (s, .scanSkipSpace)
  else if c = ']' then stateEndValue s c
  else stateBeginValue s c

def stateBeginString (s : scanner) (c : Char) : scanner × Scan :=
  if isSpace c then (s, .scanSkipSpace)
  else if c = '"' then ({ s with step := .stateInString }, .scanBeginLiteral)
  else s.error c "looking for beginning of object key string"

def stateBeginStringOrEmpty (s : scanner) (c : Char) : scanner × Scan :=
  if isSpace c then (s, .scanSkipSpace)
  else if c = '}' then stateEndValue (s.setTop .parseObjectValue) c
  else stateBeginString s c

def stateInString (s : scanner) (c : Char) : scanner × Scan :=
  if c = '"' then ({ s with step := .stateEndValue }, .scanContinue)
  else if c = '\\' then ({ s with step := .stateInStringEsc }, .scanContinue)
  else if c.toNat < 0x20 then s.error c "in string literal"
  else (s, .scanContinue)

def stateInStringEsc (s : scanner) (c : Char) : scanner × Scan :=
  if c = 'b' || c = 'f' || c = 'n' || c = 'r' || c = 't' || c = '\\' || c = '/' || c = '"' then
    ({ s with step := .stateInString }, .scanContinue)
  else if c = 'u' then ({ s with step := .stateInStringEscU }, .scanContinue)
  else s.error c "in string escape code"

/-- The four `stateInStringEscU...` functions: a hexadecimal digit moves on to `next`. -/
def stateInStringEscHex (next : Step) (s : scanner) (c : Char) : scanner × Scan :=
  if isHex c then ({ s with step := next }, .scanContinue)
  else s.error c "in \\u hexadecimal character escape"

def state0 (s : scanner) (c : Char) : scanner × Scan :=
  if c = '.' then ({ s with step := .stateDot }, .scanContinue)
  else if c = 'e' || c = 'E' then ({ s with step := .stateE }, .scanContinue)
  else stateEndValue s c

def state1 (s : scanner) (c : Char) : scanner × Scan :=
  if isDigit c then ({ s with step := .state1 }, .scanContinue)
  else state0 s c

def stateNeg (s : scanner) (c : Char) : scanner × Scan :=
  if c = '0' then ({ s with step := .state0 }, .scanContinue)
  else if '1' ≤ c && c ≤ '9' then ({ s with step := .state1 }, .scanContinue)
  else s.error c "in numeric literal"

def stateDot (s : scanner) (c : Char) : scanner × Scan :=
  if isDigit c then ({ s with step := .stateDot0 }, .scanContinue)
  else s.error c "after decimal point in numeric literal"

def stateDot0 (s : scanner) (c : Char) : scanner × Scan :=
  if isDigit c then (s, .scanContinue)
  else if c = 'e' || c = 'E' then ({ s with step := .stateE }, .scanContinue)
  else stateEndValue s c

def stateESign (s : scanner) (c : Char) : scanner × Scan :=
  if isDigit c then ({ s with step := .stateE0 }, .scanContinue)
  else s.error c "in exponent of numeric literal"

def stateE (s : scanner) (c : Char) : scanner × Scan :=
  if c = '+' || c = '-' then ({ s with step := .stateESign }, .scanContinue)
  else stateESign s c

def stateE0 (s : scanner) (c : Char) : scanner × Scan :=
  if isDigit c then (s, .scanContinue)
  else stateEndValue s c

/-- The functions `stateT` ... `stateNul`: the letter `want` moves on to `next`. -/
def stateLiteral (want : Char) (next : Step) (context : String) (s : scanner) (c : Char) :
    scanner × Scan :=
  if c = want then ({ s with step := next }, .scanContinue)
  else s.error c context

/-- The call `s.step(s, c)`. -/
def scanner.doStep (s : scanner) (c : Char) : scanner × Scan :=
  match s.step with
  | .stateBeginValueOrEmpty => stateBeginValueOrEmpty s c
  | .stateBeginValue => stateBeginValue s c
  | .stateBeginStringOrEmpty => stateBeginStringOrEmpty s c
  | .stateBeginString => stateBeginString s c
  | .stateEndValue => stateEndValue s c
  | .stateEndTop => stateEndTop s c
  | .stateInString => stateInString s c
  | .stateInStringEsc => stateInStringEsc s c
  | .stateInStringEscU => stateInStringEscHex .stateInStringEscU1 s c
  | .stateInStringEscU1 => stateInStringEscHex .stateInStringEscU12 s c
  | .stateInStringEscU12 => stateInStringEscHex .stateInStringEscU123 s c
  | .stateInStringEscU123 => stateInStringEscHex .stateInString s c
  | .stateNeg => stateNeg s c
  | .state1 => state1 s c
  | .state0 => state0 s c
  | .stateDot => stateDot s c
  | .stateDot0 => stateDot0 s c
  | .stateE => stateE s c
  | .stateESign => stateESign s c
  | .stateE0 => stateE0 s c
  | .stateT => stateLiteral 'r' .stateTr "in literal true (expecting 'r')" s c
  | .stateTr => stateLiteral 'u' .stateTru "in literal true (expecting 'u')" s c
  | .stateTru => stateLiteral 'e' .stateEndValue "in literal true (expecting 'e')" s c
  | .stateF => stateLiteral 'a' .stateFa "in literal false (expecting 'a')" s c
  | .stateFa => stateLiteral 'l' .stateFal "in literal false (expecting 'l')" s c
  | .stateFal => stateLiteral 's' .stateFals "in literal false (expecting 's')" s c
  | .stateFals => stateLiteral 'e' .stateEndValue "in literal false (expecting 'e')" s c
  | .stateN => stateLiteral 'u' .stateNu "in literal null (expecting 'u')" s c
  | .stateNu => stateLiteral 'l' .stateNul "in literal null (expecting 'l')" s c
  | .stateNul => stateLiteral 'l' .stateEndValue "in literal null (expecting 'l')" s c
  | .stateError => (s, .scanError)

/-- The `eof` method: the error with which the input ends, if it does not end a value. -/
def scanner.eof (s : scanner) : Option GoError :=
  match s.err with
  | some e => some e
  | none =>
    if s.endTop then none
    else
      let s := (s.doStep ' ').1
      if s.endTop then none
      else
        match s.err with
        | some e => some e
        | none => some (.jsonSyntax none "unexpected end of JSON input" s.bytes)

/-- The `newline` helper of `indent.go`, with an empty prefix. -/
def newline (dst : List Char) (indent : List Char) (depth : Nat) : List Char :=
  dst ++ '\n' :: (List.replicate depth indent).flatten

/-- Loop of `Indent` over the bytes of `src`: the scanner, the output written so far, and the
`needIndent` and `depth` variables.  `depth` is a `Nat`: the counter of the original can fall
below zero only on a closing bracket met after a syntax error has been recorded, and then the
output is discarded. -/
def indentLoop (indent : List Char) :
    List Char → scanner → List Char → Bool → Nat → scanner × List Char
  | [], scan, dst, _, _ => (scan, dst)
  | c :: src, scan, dst, needIndent, depth =>
    let (scan, v) := scanner.doStep { scan with bytes := scan.bytes + 1 } c
    if v = .scanSkipSpace then indentLoop indent src scan dst needIndent depth
    else if v = .scanError then (scan, dst)
    else
      let indentNow := needIndent && v != .scanEndObject && v != .scanEndArray
      let needIndent := if indentNow then false else needIndent
      let depth := if indentNow then depth + 1 else depth
      let dst := if indentNow then newline dst indent depth else dst
      if v = .scanContinue then indentLoop indent src scan (dst ++ [c]) needIndent depth
      else if c = '{' || c = '[' then indentLoop indent src scan (dst ++ [c]) true depth
      else if c = ',' then
        indentLoop indent src scan (newline (dst ++ [c]) indent depth) needIndent depth
      else if c = ':' then indentLoop indent src scan (dst ++ [c, ' ']) needIndent depth
      else if c = '}' || c = ']' then
        if needIndent then indentLoop indent src scan (dst ++ [c]) false depth
        else
          indentLoop indent src scan (newline dst indent (depth - 1) ++ [c]) needIndent
            (depth - 1)
      else indentLoop indent src scan (dst ++ [c]) needIndent depth

/-- The call `json.Indent(dst, src, "", indent)` on an empty buffer `dst`: the content of the
buffer afterwards, and the error. -/
def Indent (src : String) (indent : String) : String × Option GoError :=
  let (scan, dst) := indentLoop indent.data src.data scanner.reset [] false 0
  match scan.eof with
  | some e => ("", some e)
  | none => (String.mk dst, none)

end Json

/-! ## `web_sequence_diagram.go` -/

/-- The generator: `data` is the content of the `bytes.Buffer`. -/
structure WebSequenceDiagram where
  data : String
  count : Nat
  deriving DecidableEq, Repr

namespace WebSequenceDiagram

/-- The zero value `WebSequenceDiagram{}`. -/
def zero : WebSequenceDiagram := ⟨"", 0⟩

/-- `fmt.Sprintf("%s%s%s: (%d) %s\n", source, operation, target, count, description)`. -/
def sprintfRow (source operation target : String) (count : Nat) (description : String) :
    String :=
  source ++ operation ++ target ++ ": (" ++ Nat.repr count ++ ") " ++ description ++ "\n"

def addRow (r : WebSequenceDiagram) (operation source target description : String) :
    WebSequenceDiagram :=
  let count := r.count + 1
  { data := r.data ++ sprintfRow source operation target count description, count := count }

def AddRequestRow (r : WebSequenceDiagram) (source target description : String) :
    WebSequenceDiagram :=
  r.addRow "->" source target description

def AddResponseRow (r : WebSequenceDiagram) (source target description : String) :
    WebSequenceDiagram :=
  r.addRow "->>" source target description

/-- The method reads the buffer; the generator it returns is the one it was given. -/
def ToString (r : WebSequenceDiagram) : String × WebSequenceDiagram :=
  (r.data, r)

end WebSequenceDiagram

/-! ## Library calls taken as parameters -/

/-- The standard-library functions that `diagram.go` calls, as far as they return: a value of
this type gives, for every argument, the values the call returns.  A call that panics is not
represented. -/
structure Lib where
  /-- The call `httputil.DumpRequestOut(req, false)`. -/
  dumpRequestOut : Request → String × Option GoError
  /-- The call `httputil.DumpResponse(res, false)`. -/
  dumpResponse : Response → String × Option GoError
  /-- The call `json.Indent(buf, body, "", "    ")` on the empty buffer `buf`: what the
  buffer holds afterwards, and the error. -/
  jsonIndent : String → String × Option GoError

/-- A library whose `json.Indent` is `Json.Indent`, for given header dumps. -/
def Lib.withJson (dumpRequestOut : Request → String × Option GoError)
    (dumpResponse : Response → String × Option GoError) : Lib :=
  { dumpRequestOut := dumpRequestOut
    dumpResponse := dumpResponse
    jsonIndent := fun body => Json.Indent body "    " }

/-! ## `diagram.go`: the diagram builder (lines 102-134) -/

def NewDiagram : Diagram := { Title := "", SubTitle := "", Events := [] }

namespace Diagram

def AddHttpRequest (r : Diagram) (req : HttpRequest) : Diagram :=
  { r with Events := r.Events ++ [.httpRequest req] }

def AddHttpResponse (r : Diagram) (req : HttpResponse) : Diagram :=
  { r with Events := r.Events ++ [.httpResponse req] }

def AddMessageRequest (r : Diagram) (m : MessageRequest) : Diagram :=
  { r with Events := r.Events ++ [.messageRequest m] }

def AddMessageResponse (r : Diagram) (m : MessageResponse) : Diagram :=
  { r with Events := r.Events ++ [.messageResponse m] }

def AddTitle (r : Diagram) (title : String) : Diagram :=
  { r with Title := title }

def AddSubTitle (r : Diagram) (subTitle : String) : Diagram :=
  { r with SubTitle := subTitle }

/-- Lines 136-149. -/
def responseStatus (r : Diagram) : Outcome Int :=
  if r.Events.length = 0 then
    .returned (-1) (some (.errorsNew "no events are defined"))
  else
    match r.Events.getLast? with
    | some (.httpResponse v) =>
      match v.Value with
      | some res => .returned res.StatusCode none
      | none => .panicked nilDereference
    | some (.messageResponse _) => .returned (-1) none
    | _ => .returned (-1) (some (.errorsNew "final event should be a response type"))

end Diagram

/-- Lines 151-159. -/
def badgeCSSClass (status : Int) : String :=
  let class_ := "badge badge-success"
  let class_ :=
    if status ≥ 400 ∧ status < 500 then "badge badge-warning"
    else if status ≥ 500 then "badge badge-danger"
    else class_
  class_

/-! ## `diagram.go`: log entries of HTTP events (lines 250-301) -/

/-- Lines 274-301.  The second component is the stream after the call. -/
def formatContent (lib : Lib) (bodyReadCloser : Option ReadCloser) (contentType : String) :
    (String × Option GoError) × Option ReadCloser :=
  match bodyReadCloser with
  | none => (("", none), none)
  | some stream =>
    let ((body, err), stream) := ReadAll stream
    match err with
    | some e => (("", some e), some stream)
    | none =>
      if contentType = "application/json" then
        if body.length > 0 then
          match (lib.jsonIndent body).2 with
          | some e => (("", some e), some stream)
          | none => (("", none), some stream)
        else (("", none), some stream)
      else
        -- `buf.Write` returns a nil error
        ((body, none), some stream)

/-- Lines 250-260.  The second component is the request after the call. -/
def newHttpRequestLogModel (lib : Lib) (req : Request) :
    (LogEntry × Option GoError) × Request :=
  match lib.dumpRequestOut req with
  | (_, some e) => ((LogEntry.zero, some e), req)
  | (reqHeader, none) =>
    let ((body, err), stream) := formatContent lib req.Body (req.Header.Get "Content-Type")
    let req := { req with Body := stream }
    match err with
    | some e => ((LogEntry.zero, some e), req)
    | none => (({ Header := reqHeader, Body := body }, none), req)

/-- Lines 262-272.  The second component is the response after the call. -/
def newHttpResponseLogModel (lib : Lib) (res : Response) :
    (LogEntry × Option GoError) × Response :=
  match lib.dumpResponse res with
  | (_, some e) => ((LogEntry.zero, some e), res)
  | (resDump, none) =>
    let ((body, err), stream) := formatContent lib res.Body (res.Header.Get "Content-Type")
    let res := { res with Body := stream }
    match err with
    | some e => ((LogEntry.zero, some e), res)
    | none => (({ Header := resDump, Body := body }, none), res)

/-! ## `diagram.go`: `Diagram.BuildModel` (lines 179-226) -/

/-- How the loop over the events (lines 186-212) ends: it runs to completion with the log
entries and the generator, or returns early with an error, or panics. -/
inductive LoopExit where
  | completed (logs : List LogEntry) (webSequenceDiagram : WebSequenceDiagram)
  | failed (err : GoError)
  | panicked (reason : String)
  deriving DecidableEq, Repr

/-- The loop of lines 186-212 over the remaining events, from the current `logs` and
generator.  The second component is the events after the loop: the bodies of the HTTP events
that were visited have been read. -/
def buildModelLoop (lib : Lib) :
    List Event → List LogEntry → WebSequenceDiagram → LoopExit × List Event
  | [], logs, webSequenceDiagram => (.completed logs webSequenceDiagram, [])
  | .httpRequest v :: events, logs, webSequenceDiagram =>
    match v.Value with
    | none => (.panicked nilDereference, .httpRequest v :: events)
    | some httpReq =>
      let webSequenceDiagram :=
        webSequenceDiagram.AddRequestRow v.Source v.Target (httpReq.Method ++ " " ++ httpReq.URL)
      let ((entry, err), httpReq) := newHttpRequestLogModel lib httpReq
      let event := Event.httpRequest { v with Value := some httpReq }
      match err with
      | some e => (.failed e, event :: events)
      | none =>
        let (exit, events) := buildModelLoop lib events (logs ++ [entry]) webSequenceDiagram
        (exit, event :: events)
  | .httpResponse v :: events, logs, webSequenceDiagram =>
    match v.Value with
    | none => (.panicked nilDereference, .httpResponse v :: events)
    | some res =>
      let webSequenceDiagram :=
        webSequenceDiagram.AddResponseRow v.Source v.Target (toString res.StatusCode)
      let ((entry, err), res) := newHttpResponseLogModel lib res
      let event := Event.httpResponse { v with Value := some res }
      match err with
      | some e => (.failed e, event :: events)
      | none =>
        let (exit, events) := buildModelLoop lib events (logs ++ [entry]) webSequenceDiagram
        (exit, event :: events)
  | .messageRequest v :: events, logs, webSequenceDiagram =>
    let webSequenceDiagram := webSequenceDiagram.AddRequestRow v.Source v.Target v.Header
    let (exit, events) :=
      buildModelLoop lib events (logs ++ [{ Header := v.Header, Body := v.Body }])
        webSequenceDiagram
    (exit, .messageRequest v :: events)
  | .messageResponse v :: events, logs, webSequenceDiagram =>
    let webSequenceDiagram := webSequenceDiagram.AddResponseRow v.Source v.Target v.Header
    let (exit, events) :=
      buildModelLoop lib events (logs ++ [{ Header := v.Header, Body := v.Body }])
        webSequenceDiagram
    (exit, .messageResponse v :: events)
  | .other typeName :: events, _, _ =>
    (.panicked "received unknown event type", .other typeName :: events)

/-- Lines 179-226.  The second component is the diagram after the call. -/
def Diagram.BuildModel (lib : Lib) (r : Diagram) : Outcome DiagramHtmlModel × Diagram :=
  if r.Events.length = 0 then
    (.returned DiagramHtmlModel.zero (some (.errorsNew "no events are defined")), r)
  else
    let (exit, events) := buildModelLoop lib r.Events [] WebSequenceDiagram.zero
    let r := { r with Events := events }
    match exit with
    | .panicked reason => (.panicked reason, r)
    | .failed e => (.returned DiagramHtmlModel.zero (some e), r)
    | .completed logs _ =>
      match r.responseStatus with
      | .panicked reason => (.panicked reason, r)
      | .returned _ (some e) => (.returned DiagramHtmlModel.zero (some e), r)
      | .returned status none =>
        (.returned
          { DiagramHtmlModel.zero with
            LogEntries := logs
            Title := r.Title
            SubTitle := r.SubTitle
            StatusCode := status
            BadgeClass := badgeCSSClass status } none, r)

/-! ## Vocabulary of the specification -/

/-- The event is a `MessageResponse` or an `HttpResponse`. -/
def Event.isResponseKind : Event → Bool
  | .httpResponse _ => true
  | .messageResponse _ => true
  | _ => false

/-- The event is a `MessageRequest` or an `HttpRequest`. -/
def Event.isRequestKind : Event → Bool
  | .httpRequest _ => true
  | .messageRequest _ => true
  | _ => false

/-- The log entry that the loop of `BuildModel` appends for an event, when the loop body
gets that far: `none` for an event of unknown type, for an HTTP event whose `Value` is nil,
and for an HTTP event whose log model is not built (failed header dump, failed read of the
body, failed JSON indentation). -/
def Event.logEntry (lib : Lib) : Event → Option LogEntry
  | .httpRequest v =>
    match v.Value with
    | none => none
    | some req =>
      match (newHttpRequestLogModel lib req).1 with
      | (entry, none) => some entry
      | (_, some _) => none
  | .httpResponse v =>
    match v.Value with
    | none => none
    | some res =>
      match (newHttpResponseLogModel lib res).1 with
      | (entry, none) => some entry
      | (_, some _) => none
  | .messageRequest v => some { Header := v.Header, Body := v.Body }
  | .messageResponse v => some { Header := v.Header, Body := v.Body }
  | .other _ => none

/-- The event as the loop of `BuildModel` leaves it: the request or response of an HTTP
event is the one its log-model function hands back. -/
def Event.afterLoop (lib : Lib) : Event → Event
  | .httpRequest v =>
    .httpRequest { v with Value := v.Value.map fun req => (newHttpRequestLogModel lib req).2 }
  | .httpResponse v =>
    .httpResponse { v with Value := v.Value.map fun res => (newHttpResponseLogModel lib res).2 }
  | e => e

/-- A library whose header dumps succeed with a one-line header, and whose `json.Indent` is
`Json.Indent`. -/
def Lib.sample : Lib :=
  Lib.withJson (fun req => (req.Method ++ " " ++ req.URL ++ "\r\n\r\n", none))
    (fun res => ("HTTP/1.1 " ++ toString res.StatusCode ++ "\r\n\r\n", none))

/-! ## Calls on a generator, and the text the specification describes -/

namespace WebSequenceDiagram

/-- A call of one of the three exported methods. -/
inductive Call where
  | addRequestRow (source target description : String)
  | addResponseRow (source target description : String)
  | toString
  deriving DecidableEq, Repr

/-- The generator after one call. -/
def perform (r : WebSequenceDiagram) : Call → WebSequenceDiagram
  | .addRequestRow source target description => r.AddRequestRow source target description
  | .addResponseRow source target description => r.AddResponseRow source target description
  | .toString => r.ToString.2

/-- The generator after a sequence of calls, made in order. -/
def performAll (r : WebSequenceDiagram) (calls : List Call) : WebSequenceDiagram :=
  calls.foldl perform r

/-- A row, as the specification speaks of it. -/
structure Row where
  isResponse : Bool
  source : String
  target : String
  label : String
  deriving DecidableEq, Repr

/-- The rows that a sequence of calls adds, in call order. -/
def rowsOf : List Call → List Row
  | [] => []
  | .addRequestRow source target description :: calls =>
    ⟨false, source, target, description⟩ :: rowsOf calls
  | .addResponseRow source target description :: calls =>
    ⟨true, source, target, description⟩ :: rowsOf calls
  | .toString :: calls => rowsOf calls

/-- The line of the row numbered `i`, in the words of the specification: source, arrow,
target, `": ("`, decimal `i`, `") "`, label, newline. -/
def specLine (i : Nat) (row : Row) : String :=
  row.source ++ (if row.isResponse then "->>" else "->") ++ row.target ++ ": (" ++ Nat.repr i ++
    ") " ++ row.label ++ "\n"

/-- Concatenation of the lines of `rows`, in order, the first of them numbered `n + 1`. -/
def specTextFrom (n : Nat) : List Row → String
  | [] => ""
  | row :: rows => specLine (n + 1) row ++ specTextFrom (n + 1) rows

/-- Concatenation of the lines of `rows`, in order, numbered from 1. -/
def specText (rows : List Row) : String := specTextFrom 0 rows

end WebSequenceDiagram

/-! ## `diagram.go`: the document (lines 17-35, 78-100, 161-177, 228-248) -/

/-- `Diagrams` is a slice of pointers: `none` is a nil `*Diagram`.  `MetaJSON` is a
`template.JS`, a string type.  Distinct entries are taken to point to distinct diagrams. -/
structure Document where
  Diagrams : List (Option Diagram)
  Title : String
  Description : String
  MetaJSON : String
  deriving DecidableEq, Repr

structure DocumentHtmlModel where
  Title : String
  Description : String
  Diagrams : List DiagramHtmlModel
  MetaJSON : String
  deriving DecidableEq, Repr

/-- The zero value `DocumentHtmlModel{}`. -/
def DocumentHtmlModel.zero : DocumentHtmlModel := ⟨"", "", [], ""⟩

def NewDocument : Document := { Diagrams := [], Title := "", Description := "", MetaJSON := "" }

namespace Document

def AddTitle (r : Document) (title : String) : Document :=
  { r with Title := title }

def AddDescription (r : Document) (description : String) : Document :=
  { r with Description := description }

def AddDiagram (r : Document) (diagram : Option Diagram) : Document :=
  { r with Diagrams := r.Diagrams ++ [diagram] }

def AddMeta (r : Document) (jsonData : String) : Document :=
  { r with MetaJSON := jsonData }

end Document

/-- How the loop over the diagrams (lines 163-169) ends. -/
inductive DocumentLoopExit where
  | completed (diagrams : List DiagramHtmlModel)
  | failed (err : GoError)
  | panicked (reason : String)
  deriving DecidableEq, Repr

/-- The loop of lines 163-169 over the remaining diagrams, from the models collected so far.
The second component is the diagrams after the loop.  Calling `BuildModel` through a nil
pointer dereferences it at line 180. -/
def documentLoop (lib : Lib) :
    List (Option Diagram) → List DiagramHtmlModel → DocumentLoopExit × List (Option Diagram)
  | [], diagrams => (.completed diagrams, [])
  | none :: rest, _ => (.panicked nilDereference, none :: rest)
  | some d :: rest, diagrams =>
    match d.BuildModel lib with
    | (.panicked reason, d) => (.panicked reason, some d :: rest)
    | (.returned _ (some err), d) => (.failed err, some d :: rest)
    | (.returned model none, d) =>
      let (exit, rest) := documentLoop lib rest (diagrams ++ [model])
      (exit, some d :: rest)

/-- Lines 161-177.  The second component is the document after the call. -/
def Document.BuildModel (lib : Lib) (r : Document) : Outcome DocumentHtmlModel × Document :=
  let (exit, diagrams) := documentLoop lib r.Diagrams []
  let r := { r with Diagrams := diagrams }
  match exit with
  | .panicked reason => (.panicked reason, r)
  | .failed err => (.returned DocumentHtmlModel.zero (some err), r)
  | .completed diagrams =>
    (.returned
      { Title := r.Title, Description := r.Description, Diagrams := diagrams,
        MetaJSON := r.MetaJSON } none, r)

/-- The page template `t` (declared outside the files at hand) together with the
`html/template` engine: the error of `template.New(...).Funcs(...).Parse(t)`, and what
`Execute` writes to the output buffer for a model, with its error. -/
structure PageTemplate where
  parse : Option GoError
  execute : DocumentHtmlModel → String × Option GoError

/-- Lines 228-248.  The second component is the document after the call. -/
def Document.RenderHTML (lib : Lib) (page : PageTemplate) (r : Document) :
    Outcome String × Document :=
  match r.BuildModel lib with
  | (.panicked reason, r) => (.panicked reason, r)
  | (.returned _ (some err), r) => (.returned "" (some err), r)
  | (.returned htmlModel none, r) =>
    match page.parse with
    | some err => (.returned "" (some err), r)
    | none =>
      match page.execute htmlModel with
      | (_, some err) => (.returned "" (some err), r)
      | (out, none) => (.returned out none, r)

/-! ## Sequences of builder calls -/

/-- A call of one of the six builder methods of a diagram. -/
inductive Diagram.Op where
  | addTitle (title : String)
  | addSubTitle (subTitle : String)
  | addHttpRequest (req : HttpRequest)
  | addHttpResponse (req : HttpResponse)
  | addMessageRequest (m : MessageRequest)
  | addMessageResponse (m : MessageResponse)
  deriving DecidableEq, Repr

/-- The diagram after one builder call. -/
def Diagram.apply (r : Diagram) : Diagram.Op → Diagram
  | .addTitle title => r.AddTitle title
  | .addSubTitle subTitle => r.AddSubTitle subTitle
  | .addHttpRequest req => r.AddHttpRequest req
  | .addHttpResponse req => r.AddHttpResponse req
  | .addMessageRequest m => r.AddMessageRequest m
  | .addMessageResponse m => r.AddMessageResponse m

/-- The diagram after a sequence of builder calls, made in order. -/
def Diagram.applyAll (r : Diagram) (ops : List Diagram.Op) : Diagram :=
  ops.foldl Diagram.apply r

/-- The string last passed to `AddTitle` in a sequence of calls; `""` when there is none. -/
def lastTitle (ops : List Diagram.Op) : String :=
  match ops.reverse.findSome? (fun op => match op with | .addTitle t => some t | _ => none) with
  | some t => t
  | none => ""

/-- The string last passed to `AddSubTitle` in a sequence of calls; `""` when there is
none. -/
def lastSubTitle (ops : List Diagram.Op) : String :=
  match ops.reverse.findSome?
      (fun op => match op with | .addSubTitle t => some t | _ => none) with
  | some t => t
  | none => ""

/-! ## Vocabulary of the specification: documents, rows, rejected bodies -/

/-- The model of a diagram of a document, when `BuildModel` succeeds on it. -/
def builtModel (lib : Lib) : Option Diagram → Option DiagramHtmlModel
  | none => none
  | some d =>
    match (d.BuildModel lib).1 with
    | .returned model none => some model
    | _ => none

/-- The error of a diagram of a document, when `BuildModel` fails on it. -/
def buildError (lib : Lib) : Option Diagram → Option GoError
  | none => none
  | some d =>
    match (d.BuildModel lib).1 with
    | .returned _ (some err) => some err
    | _ => none

/-- The row that the specification describes for an event: a request row labelled
`METHOD URL` or with the header, a response row labelled with the decimal status code or with
the header. -/
def Event.specRow : Event → Option WebSequenceDiagram.Row
  | .httpRequest v =>
    v.Value.map fun req => ⟨false, v.Source, v.Target, req.Method ++ " " ++ req.URL⟩
  | .httpResponse v =>
    v.Value.map fun res => ⟨true, v.Source, v.Target, toString res.StatusCode⟩
  | .messageRequest v => some ⟨false, v.Source, v.Target, v.Header⟩
  | .messageResponse v => some ⟨true, v.Source, v.Target, v.Header⟩
  | .other _ => none

/-- The call that adds a row. -/
def WebSequenceDiagram.Row.call (row : WebSequenceDiagram.Row) : WebSequenceDiagram.Call :=
  if row.isResponse then .addResponseRow row.source row.target row.label
  else .addRequestRow row.source row.target row.label

/-- The body is a stream that is read without error, is not empty, and is rejected by
`json.Indent` with the error `err`. -/
def bodyRejected (lib : Lib) (err : GoError) : Option ReadCloser → Bool
  | none => false
  | some stream =>
    stream.fault.isNone && stream.unread != "" &&
      (lib.jsonIndent stream.unread).2 == some err

/-- The event is an HTTP event with a non-nil value whose header dump succeeds, whose
`Content-Type` header is `application/json`, and whose body is rejected with `err`. -/
def Event.jsonRejected (lib : Lib) (err : GoError) : Event → Bool
  | .httpRequest v =>
    match v.Value with
    | none => false
    | some req =>
      (lib.dumpRequestOut req).2.isNone && req.Header.Get "Content-Type" == "application/json" &&
        bodyRejected lib err req.Body
  | .httpResponse v =>
    match v.Value with
    | none => false
    | some res =>
      (lib.dumpResponse res).2.isNone && res.Header.Get "Content-Type" == "application/json" &&
        bodyRejected lib err res.Body
  | _ => false

/-! ## Vocabulary of the specification: known kinds, nil values, drained bodies -/

/-- The event is of one of the four known kinds. -/
def Event.isKnownKind : Event → Bool
  | .other _ => false
  | _ => true

/-- The event is an HTTP event whose `Value` is nil. -/
def Event.hasNilValue : Event → Bool
  | .httpRequest v => v.Value.isNone
  | .httpResponse v => v.Value.isNone
  | _ => false

/-- The event is an `HttpRequest` or an `HttpResponse`. -/
def Event.isHttp : Event → Bool
  | .httpRequest _ => true
  | .httpResponse _ => true
  | _ => false

/-- The body is nil or is a stream with nothing left to read. -/
def bodyDrained : Option ReadCloser → Bool
  | none => true
  | some stream => stream.unread == "" && stream.fault.isNone

/-- The body of the event, when it is an HTTP event with a non-nil value, is nil or has
nothing left to read. -/
def Event.bodyDrained : Event → Bool
  | .httpRequest v =>
    match v.Value with
    | none => true
    | some req => Sequence.bodyDrained req.Body
  | .httpResponse v =>
    match v.Value with
    | none => true
    | some res => Sequence.bodyDrained res.Body
  | _ => true

/-! ## Sample diagrams -/

namespace Sample

/-- The request of `aRequest()` in the tests: a GET without body, with a JSON content
type. -/
def aRequest : HttpRequest :=
  { Source := "", Target := ""
    Value := some
      { Method := "GET", URL := "http://example.com/abcdef"
        Header := [("Content-Type", ["application/json"])], Body := none } }

/-- The response of `aResponse()` in the tests: status 204, no header, no body. -/
def aResponse : HttpResponse :=
  { Source := "", Target := "", Value := some { StatusCode := 204, Header := [], Body := none } }

/-- The diagram of `aDiagram()` in the tests. -/
def aDiagram : Diagram := (NewDiagram.AddHttpRequest aRequest).AddHttpResponse aResponse

/-- A POST whose body, declared as JSON, is the single byte of an opening brace. -/
def malformedRequest : HttpRequest :=
  { Source := "client", Target := "server"
    Value := some
      { Method := "POST", URL := "http://example.com/items"
        Header := [("Content-Type", ["application/json"])]
        Body := some { unread := "\x7b", fault := none } } }

/-- A malformed JSON request followed by a message response. -/
def malformedThenResponse : Diagram :=
  (NewDiagram.AddHttpRequest malformedRequest).AddMessageResponse
    { Source := "server", Target := "client", Header := "H", Body := "B" }

/-- A message response followed by a malformed JSON request. -/
def responseThenMalformed : Diagram :=
  (NewDiagram.AddMessageResponse
    { Source := "server", Target := "client", Header := "H", Body := "B" }).AddHttpRequest
    malformedRequest

/-- The diagram of `TestDiagram_AddMessageRequest`: a message request, then a 204. -/
def messageThenNoContent : Diagram :=
  (NewDiagram.AddMessageRequest
    { Source := "", Target := "", Header := "H", Body := "B" }).AddHttpResponse aResponse

/-- The diagram of `TestDiagram_BuildModel_ErrorIfResponseTypeNotFinalEvent`. -/
def endsInRequest : Diagram := aDiagram.AddHttpRequest aRequest

/-- A diagram whose only event is a value of another type, as
`Diagram{Events: []interface{}{42}}` would build it. -/
def unknownEvent : Diagram := { Title := "", SubTitle := "", Events := [.other "int"] }

/-- A document of two diagrams: one with an event of unknown type, then one without
events. -/
def unknownThenEmpty : Document :=
  (NewDocument.AddDiagram (some unknownEvent)).AddDiagram (some NewDiagram)

/-- A document with an invalid diagram between two valid ones. -/
def validInvalidValid : Document :=
  ((NewDocument.AddDiagram (some aDiagram)).AddDiagram (some endsInRequest)).AddDiagram
    (some aDiagram)

/-- The document of `TestDocument_BuildModel`. -/
def aDocument : Document :=
  ((NewDocument.AddTitle "title").AddDescription "description").AddDiagram (some aDiagram)

/-- The document of `TestDocument_BuildModel_ErrorIfDiagramInvalid`. -/
def invalidDocument : Document := NewDocument.AddDiagram (some endsInRequest)

/-- A page template that parses and renders the title of the document. -/
def titlePage : PageTemplate :=
  { parse := none, execute := fun model => ("<h1>" ++ model.Title ++ "</h1>", none) }

/-- A request with a plain-text body whose read stops with an error. -/
def faultyRequest : HttpRequest :=
  { Source := "client", Target := "server"
    Value := some
      { Method := "POST", URL := "http://example.com/upload"
        Header := [("Content-Type", ["text/plain"])]
        Body := some { unread := "abc", fault := some (.library "unexpected EOF") } } }

/-- A request whose body cannot be read, then a malformed JSON request, then a message
response. -/
def faultyThenMalformed : Diagram :=
  ((NewDiagram.AddHttpRequest faultyRequest).AddHttpRequest malformedRequest).AddMessageResponse
    { Source := "server", Target := "client", Header := "H", Body := "B" }

/-- The request of `TestDiagram_AddHttpRequest`: a GET with a JSON body. -/
def jsonRequest : Request :=
  { Method := "GET", URL := "http://example.com/abcdef"
    Header := [("Content-Type", ["application/json"])]
    Body := some { unread := "\x7b\"a\":123\x7d", fault := none } }

/-- The calls `aDiagram().AddTitle("title").AddSubTitle("subTitle")`, after an earlier
title. -/
def titledOps : List Diagram.Op :=
  [.addTitle "draft", .addHttpRequest aRequest, .addHttpResponse aResponse, .addTitle "title",
    .addSubTitle "subTitle"]

/-- The call `NewDiagram().AddHttpResponse(HttpResponse{})`: the `Value` is nil. -/
def nilResponseOps : List Diagram.Op :=
  [.addHttpResponse { Source := "", Target := "", Value := none }]

/-- The calls `NewDiagram().AddMessageRequest(...).AddMessageResponse(...)`: no HTTP
event. -/
def messageOps : List Diagram.Op :=
  [.addMessageRequest { Source := "a", Target := "b", Header := "ask", Body := "ping" },
    .addMessageResponse { Source := "b", Target := "a", Header := "answer", Body := "pong" }]

/-- A plain-text body of six bytes. -/
def plainStream : ReadCloser := { unread := "abcdef", fault := none }

/-- A POST carrying the plain-text body, answered by a 204. -/
def plainBodyDiagram : Diagram :=
  (NewDiagram.AddHttpRequest
    { Source := "client", Target := "server"
      Value := some
        { Method := "POST", URL := "http://example.com/notes"
          Header := [("Content-Type", ["text/plain"])]
          Body := some plainStream } }).AddHttpResponse aResponse

end Sample

/-! ## Results: `formatContent` -/

theorem length_pos_of_ne_empty (s : String) (h : s ≠ "") : s.length > 0 := by
  cases s with
  | mk data =>
    cases data with
    | nil => exact absurd rfl h
    | cons c cs => simp [String.length]

/-- C7: for a content type other than `"application/json"` and a non-nil body whose read
succeeds, `formatContent` returns the bytes of the body unchanged, with a nil error. -/
theorem formatContent_other_verbatim (lib : Lib) (contentType : String) (stream : ReadCloser)
    (hct : contentType ≠ "application/json") (hread : stream.fault = none) :
    (formatContent lib (some stream) contentType).1 = (stream.unread, none) := by
  simp [formatContent, ReadAll, hread, hct]

/-- C7 at the body `abcdef` with content type `text/plain`. -/
theorem formatContent_other_verbatim_witness :
    ("text/plain" ≠ "application/json" ∧ (ReadCloser.mk "abcdef" none).fault = none) ∧
      (formatContent Lib.sample (some ⟨"abcdef", none⟩) "text/plain").1 = ("abcdef", none) :=
  ⟨⟨by decide, rfl⟩,
    formatContent_other_verbatim Lib.sample "text/plain" ⟨"abcdef", none⟩ (by decide) rfl⟩

/-- C8: whatever the content type, `formatContent` returns the empty string and a nil error
when the body is nil or is a stream that holds no bytes. -/
theorem formatContent_empty_body (lib : Lib) (contentType : String)
    (body : Option ReadCloser) (h : body = none ∨ body = some ⟨"", none⟩) :
    (formatContent lib body contentType).1 = ("", none) := by
  rcases h with h | h
  · subst h; rfl
  · subst h
    by_cases hct : contentType = "application/json"
    · simp [formatContent, ReadAll, hct]
    · simp [formatContent, ReadAll, hct]

/-- C8 at an empty stream with content type `application/json`. -/
theorem formatContent_empty_body_witness :
    (some (ReadCloser.mk "" none) = none ∨
        some (ReadCloser.mk "" none) = some (ReadCloser.mk "" none)) ∧
      (formatContent Lib.sample (some ⟨"", none⟩) "application/json").1 = ("", none) :=
  ⟨Or.inr rfl, formatContent_empty_body Lib.sample "application/json" _ (Or.inr rfl)⟩

/-- C9: for a non-empty body that `json.Indent` rejects, `formatContent` with content type
`"application/json"` returns the empty string together with the error of `json.Indent`. -/
theorem formatContent_json_malformed (lib : Lib) (stream : ReadCloser) (e : GoError)
    (hne : stream.unread ≠ "") (hread : stream.fault = none)
    (hbad : (lib.jsonIndent stream.unread).2 = some e) :
    (formatContent lib (some stream) "application/json").1 = ("", some e) := by
  have hlen := length_pos_of_ne_empty _ hne
  simp [formatContent, ReadAll, hread, hlen, hbad]

/-- C9 at a body that stops after the colon of its first key. -/
theorem formatContent_json_malformed_witness :
    ((ReadCloser.mk "\x7b\"a\":" none).unread ≠ "" ∧
        (ReadCloser.mk "\x7b\"a\":" none).fault = none ∧
        (Lib.sample.jsonIndent (ReadCloser.mk "\x7b\"a\":" none).unread).2 =
          some (.jsonSyntax none "unexpected end of JSON input" 5)) ∧
      (formatContent Lib.sample (some ⟨"\x7b\"a\":", none⟩) "application/json").1 =
        ("", some (.jsonSyntax none "unexpected end of JSON input" 5)) :=
  ⟨⟨by decide, rfl, by decide⟩,
    formatContent_json_malformed Lib.sample ⟨"\x7b\"a\":", none⟩ _ (by decide) rfl (by decide)⟩

/-- C6: on the body `{"a":"b"}` with content type `"application/json"`, `json.Indent`
produces the three indented lines, and `formatContent` returns the empty string with a nil
error. -/
theorem formatContent_json_valid_returns_empty :
    Json.Indent "\x7b\"a\":\"b\"\x7d" "    " = ("\x7b\n    \"a\": \"b\"\n\x7d", none) ∧
      (formatContent Lib.sample (some ⟨"\x7b\"a\":\"b\"\x7d", none⟩) "application/json").1 =
        ("", none) := by
  decide

/-! ## Results: the loop of `BuildModel` -/

/-- When the loop runs to completion, it has appended the log entry of every event, in order,
and has left every event as `Event.afterLoop` describes. -/
theorem buildModelLoop_completed_inv (lib : Lib) :
    ∀ (events : List Event) (logs : List LogEntry) (w : WebSequenceDiagram)
      (logs' : List LogEntry) (w' : WebSequenceDiagram) (events' : List Event),
      buildModelLoop lib events logs w = (.completed logs' w', events') →
      ∃ entries : List LogEntry,
        events.map (Event.logEntry lib) = entries.map some ∧ logs' = logs ++ entries ∧
          events' = events.map (Event.afterLoop lib) := by
  intro events
  induction events with
  | nil =>
    intro logs w logs' w' events' h
    simp only [buildModelLoop, Prod.mk.injEq, LoopExit.completed.injEq] at h
    obtain ⟨⟨h1, _⟩, h2⟩ := h
    exact ⟨[], by simp, by simp [h1], by simp [← h2]⟩
  | cons ev events ih =>
    intro logs w logs' w' events' h
    cases ev with
    | httpRequest v =>
      obtain ⟨src, tgt, val⟩ := v
      cases val with
      | none => simp [buildModelLoop] at h
      | some req =>
        rcases hm : newHttpRequestLogModel lib req with ⟨⟨entry, err⟩, req'⟩
        cases err with
        | some e => simp [buildModelLoop, hm] at h
        | none =>
          rcases hl : buildModelLoop lib events (logs ++ [entry])
              (w.AddRequestRow src tgt (req.Method ++ " " ++ req.URL)) with ⟨exit, evs⟩
          simp only [buildModelLoop, hm, hl, Prod.mk.injEq] at h
          obtain ⟨h1, h2⟩ := h
          subst h1
          obtain ⟨entries, he, hlogs, hevs⟩ := ih _ _ _ _ _ hl
          refine ⟨entry :: entries, ?_, ?_, ?_⟩
          · simp [Event.logEntry, hm, he]
          · simp [hlogs]
          · simp [← h2, hevs, Event.afterLoop, hm]
    | httpResponse v =>
      obtain ⟨src, tgt, val⟩ := v
      cases val with
      | none => simp [buildModelLoop] at h
      | some res =>
        rcases hm : newHttpResponseLogModel lib res with ⟨⟨entry, err⟩, res'⟩
        cases err with
        | some e => simp [buildModelLoop, hm] at h
        | none =>
          rcases hl : buildModelLoop lib events (logs ++ [entry])
              (w.AddResponseRow src tgt (toString res.StatusCode)) with ⟨exit, evs⟩
          simp only [buildModelLoop, hm, hl, Prod.mk.injEq] at h
          obtain ⟨h1, h2⟩ := h
          subst h1
          obtain ⟨entries, he, hlogs, hevs⟩ := ih _ _ _ _ _ hl
          refine ⟨entry :: entries, ?_, ?_, ?_⟩
          · simp [Event.logEntry, hm, he]
          · simp [hlogs]
          · simp [← h2, hevs, Event.afterLoop, hm]
    | messageRequest v =>
      rcases hl : buildModelLoop lib events (logs ++ [{ Header := v.Header, Body := v.Body }])
          (w.AddRequestRow v.Source v.Target v.Header) with ⟨exit, evs⟩
      simp only [buildModelLoop, hl, Prod.mk.injEq] at h
      obtain ⟨h1, h2⟩ := h
      subst h1
      obtain ⟨entries, he, hlogs, hevs⟩ := ih _ _ _ _ _ hl
      refine ⟨{ Header := v.Header, Body := v.Body } :: entries, ?_, ?_, ?_⟩
      · simp [Event.logEntry, he]
      · simp [hlogs]
      · simp [← h2, hevs, Event.afterLoop]
    | messageResponse v =>
      rcases hl : buildModelLoop lib events (logs ++ [{ Header := v.Header, Body := v.Body }])
          (w.AddResponseRow v.Source v.Target v.Header) with ⟨exit, evs⟩
      simp only [buildModelLoop, hl, Prod.mk.injEq] at h
      obtain ⟨h1, h2⟩ := h
      subst h1
      obtain ⟨entries, he, hlogs, hevs⟩ := ih _ _ _ _ _ hl
      refine ⟨{ Header := v.Header, Body := v.Body } :: entries, ?_, ?_, ?_⟩
      · simp [Event.logEntry, he]
      · simp [hlogs]
      · simp [← h2, hevs, Event.afterLoop]
    | other t => simp [buildModelLoop] at h

/-- The loop runs to completion when every event has a log entry. -/
theorem buildModelLoop_completes (lib : Lib) :
    ∀ (events : List Event) (logs : List LogEntry) (w : WebSequenceDiagram),
      (∀ e ∈ events, (e.logEntry lib).isSome = true) →
      ∃ (logs' : List LogEntry) (w' : WebSequenceDiagram),
        buildModelLoop lib events logs w =
          (.completed logs' w', events.map (Event.afterLoop lib)) := by
  intro events
  induction events with
  | nil => intro logs w _; exact ⟨logs, w, rfl⟩
  | cons ev events ih =>
    intro logs w hall
    have hev := hall ev (List.mem_cons_self _ _)
    have hrest : ∀ e ∈ events, (e.logEntry lib).isSome = true :=
      fun e he => hall e (List.mem_cons_of_mem _ he)
    cases ev with
    | httpRequest v =>
      obtain ⟨src, tgt, val⟩ := v
      cases val with
      | none => simp [Event.logEntry] at hev
      | some req =>
        rcases hm : newHttpRequestLogModel lib req with ⟨⟨entry, err⟩, req'⟩
        cases err with
        | some e => simp [Event.logEntry, hm] at hev
        | none =>
          obtain ⟨logs', w', hl⟩ := ih (logs ++ [entry])
            (w.AddRequestRow src tgt (req.Method ++ " " ++ req.URL)) hrest
          exact ⟨logs', w', by simp [buildModelLoop, hm, hl, Event.afterLoop]⟩
    | httpResponse v =>
      obtain ⟨src, tgt, val⟩ := v
      cases val with
      | none => simp [Event.logEntry] at hev
      | some res =>
        rcases hm : newHttpResponseLogModel lib res with ⟨⟨entry, err⟩, res'⟩
        cases err with
        | some e => simp [Event.logEntry, hm] at hev
        | none =>
          obtain ⟨logs', w', hl⟩ := ih (logs ++ [entry])
            (w.AddResponseRow src tgt (toString res.StatusCode)) hrest
          exact ⟨logs', w', by simp [buildModelLoop, hm, hl, Event.afterLoop]⟩
    | messageRequest v =>
      obtain ⟨logs', w', hl⟩ := ih (logs ++ [{ Header := v.Header, Body := v.Body }])
        (w.AddRequestRow v.Source v.Target v.Header) hrest
      exact ⟨logs', w', by simp [buildModelLoop, hl, Event.afterLoop]⟩
    | messageResponse v =>
      obtain ⟨logs', w', hl⟩ := ih (logs ++ [{ Header := v.Header, Body := v.Body }])
        (w.AddResponseRow v.Source v.Target v.Header) hrest
      exact ⟨logs', w', by simp [buildModelLoop, hl, Event.afterLoop]⟩
    | other t => simp [Event.logEntry] at hev

/-! ## Results: `Diagram.BuildModel` -/

/-- The status code of a response is not touched by building its log model. -/
theorem newHttpResponseLogModel_statusCode (lib : Lib) (res : Response) :
    (newHttpResponseLogModel lib res).2.StatusCode = res.StatusCode := by
  unfold newHttpResponseLogModel
  rcases lib.dumpResponse res with ⟨dump, _ | e⟩
  · rcases formatContent lib res.Body (res.Header.Get "Content-Type") with ⟨⟨body, _ | e⟩, s⟩ <;>
      rfl
  · rfl

/-- What `BuildModel` returns once the loop has run to completion. -/
theorem buildModel_of_loop_completed (lib : Lib) (d : Diagram) (logs : List LogEntry)
    (w : WebSequenceDiagram) (events : List Event) (hne : d.Events ≠ [])
    (hl : buildModelLoop lib d.Events [] WebSequenceDiagram.zero = (.completed logs w, events)) :
    (d.BuildModel lib).1 =
      match Diagram.responseStatus { d with Events := events } with
      | .panicked reason => .panicked reason
      | .returned _ (some e) => .returned DiagramHtmlModel.zero (some e)
      | .returned status none =>
        .returned
          { DiagramHtmlModel.zero with
            LogEntries := logs
            Title := d.Title
            SubTitle := d.SubTitle
            StatusCode := status
            BadgeClass := badgeCSSClass status } none := by
  have hlen : ¬ d.Events.length = 0 := by
    intro h0
    exact hne (List.length_eq_zero.mp h0)
  simp only [Diagram.BuildModel, hlen, if_false, hl]
  rcases Diagram.responseStatus { d with Events := events } with ⟨status, _ | e⟩ | reason <;> rfl

/-- A successful `BuildModel` comes from a completed loop and a successful
`responseStatus`. -/
theorem buildModel_ok_inv (lib : Lib) (d : Diagram) (m : DiagramHtmlModel)
    (h : (d.BuildModel lib).1 = .returned m none) :
    ∃ (logs : List LogEntry) (w : WebSequenceDiagram) (events : List Event) (status : Int),
      d.Events ≠ [] ∧
        buildModelLoop lib d.Events [] WebSequenceDiagram.zero = (.completed logs w, events) ∧
        Diagram.responseStatus { d with Events := events } = .returned status none ∧
        m = { DiagramHtmlModel.zero with
              LogEntries := logs
              Title := d.Title
              SubTitle := d.SubTitle
              StatusCode := status
              BadgeClass := badgeCSSClass status } := by
  by_cases hlen : d.Events.length = 0
  · simp [Diagram.BuildModel, hlen] at h
  · have hne : d.Events ≠ [] := fun h0 => hlen (by simp [h0])
    rcases hl : buildModelLoop lib d.Events [] WebSequenceDiagram.zero with ⟨exit, events⟩
    cases exit with
    | failed e => simp [Diagram.BuildModel, hlen, hl] at h
    | panicked reason => simp [Diagram.BuildModel, hlen, hl] at h
    | completed logs w =>
      rw [buildModel_of_loop_completed lib d logs w events hne hl] at h
      rcases hs : Diagram.responseStatus { d with Events := events } with
        ⟨status, _ | e⟩ | reason
      · rw [hs] at h
        simp only [Outcome.returned.injEq, and_true] at h
        exact ⟨logs, w, events, status, hne, rfl, hs, h.symm⟩
      · rw [hs] at h
        simp at h
      · rw [hs] at h
        simp at h

/-- C3: on a diagram without events, whatever its title and subtitle, `BuildModel` returns
the zero model together with the error `"no events are defined"`, and leaves the diagram as
it was. -/
theorem buildModel_no_events (lib : Lib) (title subTitle : String) :
    Diagram.BuildModel lib { Title := title, SubTitle := subTitle, Events := [] } =
      (.returned
          { WebSequenceDSL := "", Title := "", SubTitle := "", BadgeClass := "",
            StatusCode := 0, LogEntries := [] }
          (some (.errorsNew "no events are defined")),
        { Title := title, SubTitle := subTitle, Events := [] }) :=
  rfl

/-- C4: when `BuildModel` succeeds, `BadgeClass` is `badgeCSSClass` of the returned
`StatusCode`: the danger class from 500 up, the warning class from 400 to 499, the success
class below 400; so it is one of these three strings. -/
theorem buildModel_badgeClass (lib : Lib) (d : Diagram) (m : DiagramHtmlModel)
    (h : (d.BuildModel lib).1 = .returned m none) :
    m.BadgeClass = badgeCSSClass m.StatusCode ∧
      (m.StatusCode ≥ 500 → m.BadgeClass = "badge badge-danger") ∧
      (400 ≤ m.StatusCode ∧ m.StatusCode < 500 → m.BadgeClass = "badge badge-warning") ∧
      (m.StatusCode < 400 → m.BadgeClass = "badge badge-success") ∧
      (m.BadgeClass = "badge badge-danger" ∨ m.BadgeClass = "badge badge-warning" ∨
        m.BadgeClass = "badge badge-success") := by
  obtain ⟨logs, w, events, status, _, _, _, hm⟩ := buildModel_ok_inv lib d m h
  subst hm
  refine ⟨rfl, ?_, ?_, ?_, ?_⟩ <;> simp only [badgeCSSClass]
  · intro h5
    have h1 : ¬ (status ≥ 400 ∧ status < 500) := by omega
    simp [h1, h5]
  · intro h4
    simp [h4]
  · intro h3
    have h1 : ¬ (status ≥ 400 ∧ status < 500) := by omega
    have h2 : ¬ status ≥ 500 := by omega
    simp [h1, h2]
  · by_cases h1 : status ≥ 400 ∧ status < 500
    · simp [h1]
    · by_cases h2 : status ≥ 500
      · simp [h1, h2]
      · simp [h1, h2]

/-- The status that `responseStatus` reads after a completed loop, from the last event of the
diagram the loop started from. -/
theorem responseStatus_afterLoop (lib : Lib) (d : Diagram) (last : Event)
    (hlast : d.Events.getLast? = some last) :
    Diagram.responseStatus { d with Events := d.Events.map (Event.afterLoop lib) } =
      match last with
      | .httpResponse v =>
        match v.Value with
        | some res => .returned res.StatusCode none
        | none => .panicked nilDereference
      | .messageResponse _ => .returned (-1) none
      | _ => .returned (-1) (some (.errorsNew "final event should be a response type")) := by
  have hne : d.Events ≠ [] := by
    intro h0
    simp [h0] at hlast
  have hlen : ¬ (d.Events.map (Event.afterLoop lib)).length = 0 := by
    simpa using hne
  simp only [Diagram.responseStatus, hlen, if_false, List.getLast?_map, hlast, Option.map_some']
  cases last with
  | httpRequest v => rfl
  | httpResponse v =>
    obtain ⟨src, tgt, val⟩ := v
    cases val with
    | none => rfl
    | some res => simp [Event.afterLoop, newHttpResponseLogModel_statusCode]
  | messageRequest v => rfl
  | messageResponse v => rfl
  | other t => rfl

/-- C1 (amended): when the last event is of a response kind and every event has a log entry
(known type, non-nil HTTP value, header dump, read of the body and JSON indentation all
succeed), `BuildModel` succeeds; `StatusCode` is the status code of the last event when that
is an `HttpResponse`, and -1 when it is a `MessageResponse`. -/
theorem buildModel_status_of_last_response (lib : Lib) (d : Diagram) (last : Event)
    (hlast : d.Events.getLast? = some last) (hresp : last.isResponseKind = true)
    (hlog : ∀ e ∈ d.Events, (e.logEntry lib).isSome = true) :
    ∃ m : DiagramHtmlModel, (d.BuildModel lib).1 = .returned m none ∧
      (∀ v, last = .httpResponse v → ∃ res, v.Value = some res ∧ m.StatusCode = res.StatusCode) ∧
      (∀ v, last = .messageResponse v → m.StatusCode = -1) := by
  have hne : d.Events ≠ [] := by
    intro h0
    simp [h0] at hlast
  obtain ⟨logs, w, hl⟩ := buildModelLoop_completes lib d.Events [] WebSequenceDiagram.zero hlog
  have hb := buildModel_of_loop_completed lib d logs w _ hne hl
  rw [responseStatus_afterLoop lib d last hlast] at hb
  have hmem := hlog last (List.mem_of_getLast?_eq_some hlast)
  cases last with
  | httpRequest v => simp [Event.isResponseKind] at hresp
  | messageRequest v => simp [Event.isResponseKind] at hresp
  | other t => simp [Event.isResponseKind] at hresp
  | messageResponse v =>
    refine ⟨_, hb, ?_, ?_⟩
    · intro v' hv
      cases hv
    · intro _ _
      rfl
  | httpResponse v =>
    obtain ⟨src, tgt, val⟩ := v
    cases val with
    | none => simp [Event.logEntry] at hmem
    | some res =>
      refine ⟨_, hb, ?_, ?_⟩
      · intro v' hv
        cases hv
        exact ⟨res, rfl, rfl⟩
      · intro v' hv
        cases hv

/-- C2 (amended): when the last event is of a request kind and every event has a log entry
(known type, non-nil HTTP value, header dump, read of the body and JSON indentation all
succeed), `BuildModel` returns the zero model with the error
`"final event should be a response type"`. -/
theorem buildModel_request_last (lib : Lib) (d : Diagram) (last : Event)
    (hlast : d.Events.getLast? = some last) (hreq : last.isRequestKind = true)
    (hlog : ∀ e ∈ d.Events, (e.logEntry lib).isSome = true) :
    (d.BuildModel lib).1 =
      .returned DiagramHtmlModel.zero
        (some (.errorsNew "final event should be a response type")) := by
  have hne : d.Events ≠ [] := by
    intro h0
    simp [h0] at hlast
  obtain ⟨logs, w, hl⟩ := buildModelLoop_completes lib d.Events [] WebSequenceDiagram.zero hlog
  have hb := buildModel_of_loop_completed lib d logs w _ hne hl
  rw [responseStatus_afterLoop lib d last hlast] at hb
  cases last with
  | httpRequest v => exact hb
  | messageRequest v => exact hb
  | other t => simp [Event.isRequestKind] at hreq
  | messageResponse v => simp [Event.isRequestKind] at hreq
  | httpResponse v => simp [Event.isRequestKind] at hreq

/-- C10: when `BuildModel` succeeds, `LogEntries` holds one entry per event, the entry at each
index being the log entry of the event at that index; for a `MessageRequest` or
`MessageResponse` it is the event's `Header` and `Body`. -/
theorem buildModel_logEntries (lib : Lib) (d : Diagram) (m : DiagramHtmlModel)
    (h : (d.BuildModel lib).1 = .returned m none) :
    m.LogEntries.length = d.Events.length ∧
      d.Events.map (Event.logEntry lib) = m.LogEntries.map some ∧
      (∀ (i : Nat) (v : MessageRequest), d.Events[i]? = some (.messageRequest v) →
        m.LogEntries[i]? = some { Header := v.Header, Body := v.Body }) ∧
      (∀ (i : Nat) (v : MessageResponse), d.Events[i]? = some (.messageResponse v) →
        m.LogEntries[i]? = some { Header := v.Header, Body := v.Body }) := by
  obtain ⟨logs, w, events, status, _, hl, _, hm⟩ := buildModel_ok_inv lib d m h
  obtain ⟨entries, hmap, hlogs, _⟩ := buildModelLoop_completed_inv lib _ _ _ _ _ _ hl
  simp only [List.nil_append] at hlogs
  subst hlogs
  subst hm
  have hidx : ∀ (i : Nat) (ev : Event) (entry : LogEntry), d.Events[i]? = some ev →
      ev.logEntry lib = some entry → logs[i]? = some entry := by
    intro i ev entry hev hentry
    have h1 := congrArg (fun l => l[i]?) hmap
    simp only [List.getElem?_map, hev, Option.map_some', hentry] at h1
    cases hli : logs[i]? with
    | none => rw [hli] at h1; simp at h1
    | some x =>
      rw [hli] at h1
      simp only [Option.map_some', Option.some.injEq] at h1
      rw [h1]
  refine ⟨?_, hmap, ?_, ?_⟩
  · have h2 := congrArg List.length hmap
    simpa using h2.symm
  · intro i v hv
    exact hidx i _ _ hv rfl
  · intro i v hv
    exact hidx i _ _ hv rfl

/-! ## Results: the samples -/

/-- C1 (amended) at the diagram of `TestDiagram_AddMessageRequest`. -/
theorem buildModel_status_of_last_response_witness :
    (Sample.messageThenNoContent.Events.getLast? = some (.httpResponse Sample.aResponse) ∧
        (Event.httpResponse Sample.aResponse).isResponseKind = true ∧
        ∀ e ∈ Sample.messageThenNoContent.Events, (e.logEntry Lib.sample).isSome = true) ∧
      ∃ m : DiagramHtmlModel,
        (Sample.messageThenNoContent.BuildModel Lib.sample).1 = .returned m none ∧
        (∀ v, Event.httpResponse Sample.aResponse = .httpResponse v →
          ∃ res, v.Value = some res ∧ m.StatusCode = res.StatusCode) ∧
        (∀ v, Event.httpResponse Sample.aResponse = .messageResponse v → m.StatusCode = -1) :=
  ⟨⟨by decide, by decide, by decide⟩,
    buildModel_status_of_last_response Lib.sample Sample.messageThenNoContent
      (.httpResponse Sample.aResponse) (by decide) (by decide) (by decide)⟩

/-- C1 (as stated) fails: the sample diagram is non-empty and ends in a `MessageResponse`,
yet `BuildModel` returns the zero model with the syntax error of `json.Indent` on the body of
its first event. -/
theorem buildModel_response_last_can_fail :
    Sample.malformedThenResponse.Events ≠ [] ∧
      Sample.malformedThenResponse.Events.getLast?.map Event.isResponseKind = some true ∧
      (Sample.malformedThenResponse.BuildModel Lib.sample).1 =
        .returned DiagramHtmlModel.zero
          (some (.jsonSyntax none "unexpected end of JSON input" 1)) := by
  decide

/-- C2 (amended) at the diagram of
`TestDiagram_BuildModel_ErrorIfResponseTypeNotFinalEvent`. -/
theorem buildModel_request_last_witness :
    (Sample.endsInRequest.Events.getLast? = some (.httpRequest Sample.aRequest) ∧
        (Event.httpRequest Sample.aRequest).isRequestKind = true ∧
        ∀ e ∈ Sample.endsInRequest.Events, (e.logEntry Lib.sample).isSome = true) ∧
      (Sample.endsInRequest.BuildModel Lib.sample).1 =
        .returned DiagramHtmlModel.zero
          (some (.errorsNew "final event should be a response type")) :=
  ⟨⟨by decide, by decide, by decide⟩,
    buildModel_request_last Lib.sample Sample.endsInRequest (.httpRequest Sample.aRequest)
      (by decide) (by decide) (by decide)⟩

/-- C2 (as stated) fails: the sample diagram is non-empty and ends in an `HttpRequest`, yet
the error `BuildModel` returns is the syntax error of `json.Indent`, which is not the error
`"final event should be a response type"`. -/
theorem buildModel_request_last_other_error :
    Sample.responseThenMalformed.Events ≠ [] ∧
      Sample.responseThenMalformed.Events.getLast?.map Event.isRequestKind = some true ∧
      (Sample.responseThenMalformed.BuildModel Lib.sample).1 =
        .returned DiagramHtmlModel.zero
          (some (.jsonSyntax none "unexpected end of JSON input" 1)) ∧
      (Sample.responseThenMalformed.BuildModel Lib.sample).1 ≠
        .returned DiagramHtmlModel.zero
          (some (.errorsNew "final event should be a response type")) := by
  decide

/-- C4 at the diagram of `TestDiagram_AddMessageRequest`. -/
theorem buildModel_badgeClass_witness :
    (Sample.messageThenNoContent.BuildModel Lib.sample).1 =
        .returned
          { WebSequenceDSL := "", Title := "", SubTitle := "",
            BadgeClass := "badge badge-success", StatusCode := 204,
            LogEntries := [⟨"H", "B"⟩, ⟨"HTTP/1.1 204\r\n\r\n", ""⟩] } none ∧
      "badge badge-success" = badgeCSSClass 204 :=
  ⟨by decide,
    (buildModel_badgeClass Lib.sample Sample.messageThenNoContent
      { WebSequenceDSL := "", Title := "", SubTitle := "",
        BadgeClass := "badge badge-success", StatusCode := 204,
        LogEntries := [⟨"H", "B"⟩, ⟨"HTTP/1.1 204\r\n\r\n", ""⟩] } (by decide)).1⟩

/-- C10 at the diagram of `TestDiagram_AddMessageRequest`. -/
theorem buildModel_logEntries_witness :
    (Sample.messageThenNoContent.BuildModel Lib.sample).1 =
        .returned
          { WebSequenceDSL := "", Title := "", SubTitle := "",
            BadgeClass := "badge badge-success", StatusCode := 204,
            LogEntries := [⟨"H", "B"⟩, ⟨"HTTP/1.1 204\r\n\r\n", ""⟩] } none ∧
      [LogEntry.mk "H" "B", ⟨"HTTP/1.1 204\r\n\r\n", ""⟩].length =
        Sample.messageThenNoContent.Events.length :=
  ⟨by decide,
    (buildModel_logEntries Lib.sample Sample.messageThenNoContent
      { WebSequenceDSL := "", Title := "", SubTitle := "",
        BadgeClass := "badge badge-success", StatusCode := 204,
        LogEntries := [⟨"H", "B"⟩, ⟨"HTTP/1.1 204\r\n\r\n", ""⟩] } (by decide)).1⟩

/-! ## Results: the generator -/

/-- After any calls, the buffer holds what it held before followed by the lines of the rows
added, numbered on from the counter. -/
theorem performAll_data (calls : List WebSequenceDiagram.Call) :
    ∀ r : WebSequenceDiagram,
      (r.performAll calls).data =
          r.data ++ WebSequenceDiagram.specTextFrom r.count (WebSequenceDiagram.rowsOf calls) := by
  induction calls with
  | nil =>
    intro r
    simp [WebSequenceDiagram.performAll, WebSequenceDiagram.rowsOf,
      WebSequenceDiagram.specTextFrom]
  | cons c calls ih =>
    intro r
    have hstep : r.performAll (c :: calls) = (r.perform c).performAll calls := rfl
    rw [hstep, ih]
    cases c with
    | addRequestRow s t l =>
      simp [WebSequenceDiagram.perform, WebSequenceDiagram.AddRequestRow,
        WebSequenceDiagram.addRow, WebSequenceDiagram.rowsOf, WebSequenceDiagram.specTextFrom,
        WebSequenceDiagram.specLine, WebSequenceDiagram.sprintfRow, String.append_assoc]
    | addResponseRow s t l =>
      simp [WebSequenceDiagram.perform, WebSequenceDiagram.AddResponseRow,
        WebSequenceDiagram.addRow, WebSequenceDiagram.rowsOf, WebSequenceDiagram.specTextFrom,
        WebSequenceDiagram.specLine, WebSequenceDiagram.sprintfRow, String.append_assoc]
    | toString =>
      simp [WebSequenceDiagram.perform, WebSequenceDiagram.ToString, WebSequenceDiagram.rowsOf]

/-- C5: after any sequence of `AddRequestRow`, `AddResponseRow` and `ToString` calls on a
fresh generator, `ToString` returns the concatenation, in call order, of the lines of the
rows added so far, numbered from 1 across both kinds of row, and returns the generator
unchanged. -/
theorem toString_after_calls (calls : List WebSequenceDiagram.Call) :
    (WebSequenceDiagram.zero.performAll calls).ToString =
      (WebSequenceDiagram.specText (WebSequenceDiagram.rowsOf calls),
        WebSequenceDiagram.zero.performAll calls) := by
  have h : (WebSequenceDiagram.zero.performAll calls).data =
      WebSequenceDiagram.specTextFrom 0 (WebSequenceDiagram.rowsOf calls) := by
    simpa [WebSequenceDiagram.zero] using performAll_data calls WebSequenceDiagram.zero
  simp only [WebSequenceDiagram.ToString, WebSequenceDiagram.specText, h]

/-- The rows of `TestWebSequenceDiagram_GeneratesDSL`, with a `ToString` call in between. -/
theorem toString_generatesDSL :
    (WebSequenceDiagram.zero.performAll
        [.addRequestRow "A" "B" "request1", .addRequestRow "B" "C" "request2", .toString,
          .addResponseRow "C" "B" "response1", .addResponseRow "B" "A" "response2"]).ToString.1 =
      "A->B: (1) request1\nB->C: (2) request2\nC->>B: (3) response1\nB->>A: (4) response2\n" := by
  decide

/-! ## Results: documents -/

/-- The loop over the diagrams runs to completion, collecting the models in order, when every
diagram builds successfully. -/
theorem documentLoop_completes (lib : Lib) :
    ∀ (ds : List (Option Diagram)) (models acc : List DiagramHtmlModel),
      ds.map (builtModel lib) = models.map some →
      ∃ ds' : List (Option Diagram),
        documentLoop lib ds acc = (.completed (acc ++ models), ds') := by
  intro ds
  induction ds with
  | nil =>
    intro models acc h
    cases models with
    | nil => exact ⟨[], by simp [documentLoop]⟩
    | cons m ms => simp at h
  | cons d ds ih =>
    intro models acc h
    cases models with
    | nil => simp at h
    | cons m ms =>
      simp only [List.map_cons, List.cons.injEq] at h
      obtain ⟨hd, htl⟩ := h
      cases d with
      | none => simp [builtModel] at hd
      | some d =>
        rcases hb : d.BuildModel lib with ⟨o, d'⟩
        rcases o with ⟨model, _ | err⟩ | reason
        · simp only [builtModel, hb, Option.some.injEq] at hd
          subst hd
          obtain ⟨ds', hl⟩ := ih ms (acc ++ [model]) htl
          exact ⟨some d' :: ds', by simp [documentLoop, hb, hl]⟩
        · simp [builtModel, hb] at hd
        · simp [builtModel, hb] at hd

/-- The loop over the diagrams returns the error of a diagram whose build fails when every
diagram before it builds successfully. -/
theorem documentLoop_first_failure (lib : Lib) (d : Option Diagram)
    (post : List (Option Diagram)) (err : GoError) (hd : buildError lib d = some err) :
    ∀ (pre : List (Option Diagram)) (acc : List DiagramHtmlModel),
      (∀ p ∈ pre, (builtModel lib p).isSome = true) →
      (documentLoop lib (pre ++ d :: post) acc).1 = .failed err := by
  intro pre
  induction pre with
  | nil =>
    intro acc _
    cases d with
    | none => simp [buildError] at hd
    | some d =>
      rcases hb : d.BuildModel lib with ⟨o, d'⟩
      rcases o with ⟨model, _ | e⟩ | reason
      · simp [buildError, hb] at hd
      · simp only [buildError, hb, Option.some.injEq] at hd
        simp [documentLoop, hb, hd]
      · simp [buildError, hb] at hd
  | cons p pre ih =>
    intro acc hall
    have hp := hall p (List.mem_cons_self _ _)
    have hrest : ∀ q ∈ pre, (builtModel lib q).isSome = true :=
      fun q hq => hall q (List.mem_cons_of_mem _ hq)
    cases p with
    | none => simp [builtModel] at hp
    | some p =>
      rcases hb : p.BuildModel lib with ⟨o, p'⟩
      rcases o with ⟨model, _ | e⟩ | reason
      · have h := ih (acc ++ [model]) hrest
        simp only [List.cons_append, documentLoop, hb]
        exact h
      · simp [builtModel, hb] at hp
      · simp [builtModel, hb] at hp

/-- C11 (amended): when the build of a diagram of the document fails and every diagram before
it in the list builds successfully, `Document.BuildModel` returns the zero
`DocumentHtmlModel` together with the error of that diagram, whatever the diagrams after
it. -/
theorem document_buildModel_first_failure (lib : Lib) (r : Document)
    (pre post : List (Option Diagram)) (d : Option Diagram) (err : GoError)
    (hsplit : r.Diagrams = pre ++ d :: post)
    (hpre : ∀ p ∈ pre, (builtModel lib p).isSome = true)
    (hd : buildError lib d = some err) :
    (r.BuildModel lib).1 =
      .returned { Title := "", Description := "", Diagrams := [], MetaJSON := "" }
        (some err) := by
  have h := documentLoop_first_failure lib d post err hd pre [] hpre
  rw [← hsplit] at h
  rcases hl : documentLoop lib r.Diagrams [] with ⟨exit, ds⟩
  rw [hl] at h
  simp only at h
  subst h
  simp [Document.BuildModel, hl, DocumentHtmlModel.zero]

/-- C11 at a document with an invalid diagram between two valid ones. -/
theorem document_buildModel_first_failure_witness :
    (Sample.validInvalidValid.Diagrams =
          [some Sample.aDiagram] ++ some Sample.endsInRequest :: [some Sample.aDiagram] ∧
        (∀ p ∈ [some Sample.aDiagram], (builtModel Lib.sample p).isSome = true) ∧
        buildError Lib.sample (some Sample.endsInRequest) =
          some (.errorsNew "final event should be a response type")) ∧
      (Sample.validInvalidValid.BuildModel Lib.sample).1 =
        .returned { Title := "", Description := "", Diagrams := [], MetaJSON := "" }
          (some (.errorsNew "final event should be a response type")) :=
  ⟨⟨by decide, by decide, by decide⟩,
    document_buildModel_first_failure Lib.sample Sample.validInvalidValid
      [some Sample.aDiagram] [some Sample.aDiagram] (some Sample.endsInRequest) _ (by decide)
      (by decide) (by decide)⟩

/-- C11 (as stated) fails: in the sample document the first diagram on which `BuildModel`
returns an error is the second one, with `"no events are defined"`; the first diagram holds
an event of unknown type, and `Document.BuildModel` panics instead of returning that
error. -/
theorem document_buildModel_panics_before_failure :
    Sample.unknownThenEmpty.Diagrams = [some Sample.unknownEvent, some NewDiagram] ∧
      buildError Lib.sample (some Sample.unknownEvent) = none ∧
      buildError Lib.sample (some NewDiagram) = some (.errorsNew "no events are defined") ∧
      (Sample.unknownThenEmpty.BuildModel Lib.sample).1 =
        .panicked "received unknown event type" := by
  decide

/-- C12: when every diagram of the document builds successfully, `Document.BuildModel`
succeeds with the title, description and meta data of the document and the models of the
diagrams in list order; for a document without diagrams the list is empty. -/
theorem document_buildModel_all_valid (lib : Lib) (r : Document)
    (models : List DiagramHtmlModel)
    (h : r.Diagrams.map (builtModel lib) = models.map some) :
    (r.BuildModel lib).1 =
      .returned
        { Title := r.Title, Description := r.Description, Diagrams := models,
          MetaJSON := r.MetaJSON } none := by
  obtain ⟨ds', hl⟩ := documentLoop_completes lib r.Diagrams models [] h
  simp [Document.BuildModel, hl]

/-- C12 at the document of `TestDocument_BuildModel`. -/
theorem document_buildModel_all_valid_witness :
    Sample.aDocument.Diagrams.map (builtModel Lib.sample) =
        [{ WebSequenceDSL := "", Title := "", SubTitle := "",
           BadgeClass := "badge badge-success", StatusCode := 204,
           LogEntries :=
            [⟨"GET http://example.com/abcdef\r\n\r\n", ""⟩, ⟨"HTTP/1.1 204\r\n\r\n", ""⟩] }].map
          some ∧
      (Sample.aDocument.BuildModel Lib.sample).1 =
        .returned
          { Title := "title", Description := "description",
            Diagrams :=
              [{ WebSequenceDSL := "", Title := "", SubTitle := "",
                 BadgeClass := "badge badge-success", StatusCode := 204,
                 LogEntries :=
                  [⟨"GET http://example.com/abcdef\r\n\r\n", ""⟩,
                    ⟨"HTTP/1.1 204\r\n\r\n", ""⟩] }],
            MetaJSON := "" } none :=
  ⟨by decide, document_buildModel_all_valid Lib.sample Sample.aDocument _ (by decide)⟩

/-- C15: when `Document.BuildModel` fails with an error, `RenderHTML` returns the empty
string together with that error, whatever the page template. -/
theorem renderHTML_build_failure (lib : Lib) (page : PageTemplate) (r : Document)
    (model : DocumentHtmlModel) (err : GoError)
    (h : (r.BuildModel lib).1 = .returned model (some err)) :
    (r.RenderHTML lib page).1 = .returned "" (some err) := by
  rcases hb : r.BuildModel lib with ⟨o, r'⟩
  rw [hb] at h
  simp only at h
  subst h
  simp [Document.RenderHTML, hb]

/-- C15 at the document of `TestDocument_BuildModel_ErrorIfDiagramInvalid`. -/
theorem renderHTML_build_failure_witness :
    (Sample.invalidDocument.BuildModel Lib.sample).1 =
        .returned DocumentHtmlModel.zero
          (some (.errorsNew "final event should be a response type")) ∧
      (Sample.invalidDocument.RenderHTML Lib.sample Sample.titlePage).1 =
        .returned "" (some (.errorsNew "final event should be a response type")) :=
  ⟨by decide,
    renderHTML_build_failure Lib.sample Sample.titlePage Sample.invalidDocument
      DocumentHtmlModel.zero _ (by decide)⟩

/-- After `AddDiagram` calls on a document, the list holds what it held before followed by
the diagrams added, in call order. -/
theorem addDiagram_foldl (ds : List (Option Diagram)) :
    ∀ r : Document,
      ds.foldl Document.AddDiagram r = { r with Diagrams := r.Diagrams ++ ds } := by
  induction ds with
  | nil => intro r; simp
  | cons d ds ih => intro r; simp [ih, Document.AddDiagram]

/-- C16: each builder call of a document changes its own field and no other: `AddDiagram`
appends the diagram to the list, so that the calls made on a new document leave exactly the
diagrams added, in call order; `AddTitle`, `AddDescription` and `AddMeta` set `Title`,
`Description` and `MetaJSON` to the argument. -/
theorem document_builders_frame (r : Document) :
    (∀ d, r.AddDiagram d =
        { Diagrams := r.Diagrams ++ [d], Title := r.Title, Description := r.Description,
          MetaJSON := r.MetaJSON }) ∧
      (∀ ds : List (Option Diagram),
        (ds.foldl Document.AddDiagram NewDocument).Diagrams = ds ∧
          (ds.foldl Document.AddDiagram NewDocument).Diagrams.length = ds.length) ∧
      (∀ title, r.AddTitle title =
        { Diagrams := r.Diagrams, Title := title, Description := r.Description,
          MetaJSON := r.MetaJSON }) ∧
      (∀ description, r.AddDescription description =
        { Diagrams := r.Diagrams, Title := r.Title, Description := description,
          MetaJSON := r.MetaJSON }) ∧
      (∀ jsonData, r.AddMeta jsonData =
        { Diagrams := r.Diagrams, Title := r.Title, Description := r.Description,
          MetaJSON := jsonData }) := by
  refine ⟨fun _ => rfl, ?_, fun _ => rfl, fun _ => rfl, fun _ => rfl⟩
  intro ds
  have h : (ds.foldl Document.AddDiagram NewDocument).Diagrams = ds := by
    rw [addDiagram_foldl ds NewDocument]
    simp [NewDocument]
  exact ⟨h, by rw [h]⟩

/-! ## Results: one step of the loop of `BuildModel` -/

/-- An event that has a log entry has a row, and the loop passes over it: it adds the row to
the generator, appends the entry and goes on with the remaining events. -/
theorem buildModelLoop_cons_of_logEntry (lib : Lib) (ev : Event) (entry : LogEntry)
    (h : ev.logEntry lib = some entry) :
    ∃ row : WebSequenceDiagram.Row, ev.specRow = some row ∧
      ∀ (xs : List Event) (logs : List LogEntry) (w : WebSequenceDiagram),
        buildModelLoop lib (ev :: xs) logs w =
          ((buildModelLoop lib xs (logs ++ [entry]) (w.perform row.call)).1,
            ev.afterLoop lib ::
              (buildModelLoop lib xs (logs ++ [entry]) (w.perform row.call)).2) := by
  cases ev with
  | httpRequest v =>
    obtain ⟨src, tgt, val⟩ := v
    cases val with
    | none => simp [Event.logEntry] at h
    | some req =>
      rcases hm : newHttpRequestLogModel lib req with ⟨⟨entry', err⟩, req'⟩
      cases err with
      | some e => simp [Event.logEntry, hm] at h
      | none =>
        simp only [Event.logEntry, hm, Option.some.injEq] at h
        subst h
        refine ⟨⟨false, src, tgt, req.Method ++ " " ++ req.URL⟩, rfl, ?_⟩
        intro xs logs w
        simp [buildModelLoop, hm, Event.afterLoop, WebSequenceDiagram.perform,
          WebSequenceDiagram.Row.call]
  | httpResponse v =>
    obtain ⟨src, tgt, val⟩ := v
    cases val with
    | none => simp [Event.logEntry] at h
    | some res =>
      rcases hm : newHttpResponseLogModel lib res with ⟨⟨entry', err⟩, res'⟩
      cases err with
      | some e => simp [Event.logEntry, hm] at h
      | none =>
        simp only [Event.logEntry, hm, Option.some.injEq] at h
        subst h
        refine ⟨⟨true, src, tgt, toString res.StatusCode⟩, rfl, ?_⟩
        intro xs logs w
        simp [buildModelLoop, hm, Event.afterLoop, WebSequenceDiagram.perform,
          WebSequenceDiagram.Row.call]
  | messageRequest v =>
    simp only [Event.logEntry, Option.some.injEq] at h
    subst h
    refine ⟨⟨false, v.Source, v.Target, v.Header⟩, rfl, ?_⟩
    intro xs logs w
    simp [buildModelLoop, Event.afterLoop, WebSequenceDiagram.perform,
      WebSequenceDiagram.Row.call]
  | messageResponse v =>
    simp only [Event.logEntry, Option.some.injEq] at h
    subst h
    refine ⟨⟨true, v.Source, v.Target, v.Header⟩, rfl, ?_⟩
    intro xs logs w
    simp [buildModelLoop, Event.afterLoop, WebSequenceDiagram.perform,
      WebSequenceDiagram.Row.call]
  | other t => simp [Event.logEntry] at h

/-- A rejected body makes `formatContent` return the error of `json.Indent`. -/
theorem formatContent_of_bodyRejected (lib : Lib) (err : GoError) (body : Option ReadCloser)
    (h : bodyRejected lib err body = true) :
    (formatContent lib body "application/json").1 = ("", some err) := by
  cases body with
  | none => simp [bodyRejected] at h
  | some stream =>
    simp only [bodyRejected, Bool.and_eq_true, Option.isNone_iff_eq_none, bne_iff_ne, ne_eq,
      beq_iff_eq] at h
    obtain ⟨⟨hfault, hne⟩, hbad⟩ := h
    have hlen := length_pos_of_ne_empty _ hne
    simp [formatContent, ReadAll, hfault, hlen, hbad]

/-- The loop returns the error of `json.Indent` at an event whose JSON body is rejected. -/
theorem buildModelLoop_cons_jsonRejected (lib : Lib) (ev : Event) (err : GoError)
    (h : ev.jsonRejected lib err = true) (xs : List Event) (logs : List LogEntry)
    (w : WebSequenceDiagram) :
    (buildModelLoop lib (ev :: xs) logs w).1 = .failed err := by
  cases ev with
  | httpRequest v =>
    obtain ⟨src, tgt, val⟩ := v
    cases val with
    | none => simp [Event.jsonRejected] at h
    | some req =>
      simp only [Event.jsonRejected, Bool.and_eq_true, Option.isNone_iff_eq_none,
        beq_iff_eq] at h
      obtain ⟨⟨hdump, hct⟩, hbody⟩ := h
      have hf := formatContent_of_bodyRejected lib err req.Body hbody
      rcases hd : lib.dumpRequestOut req with ⟨dump, derr⟩
      rw [hd] at hdump
      simp only at hdump
      subst hdump
      rcases hfc : formatContent lib req.Body "application/json" with ⟨⟨text, ferr⟩, stream⟩
      rw [hfc] at hf
      simp only [Prod.mk.injEq] at hf
      obtain ⟨_, hferr⟩ := hf
      subst hferr
      simp [buildModelLoop, newHttpRequestLogModel, hd, hct, hfc]
  | httpResponse v =>
    obtain ⟨src, tgt, val⟩ := v
    cases val with
    | none => simp [Event.jsonRejected] at h
    | some res =>
      simp only [Event.jsonRejected, Bool.and_eq_true, Option.isNone_iff_eq_none,
        beq_iff_eq] at h
      obtain ⟨⟨hdump, hct⟩, hbody⟩ := h
      have hf := formatContent_of_bodyRejected lib err res.Body hbody
      rcases hd : lib.dumpResponse res with ⟨dump, derr⟩
      rw [hd] at hdump
      simp only at hdump
      subst hdump
      rcases hfc : formatContent lib res.Body "application/json" with ⟨⟨text, ferr⟩, stream⟩
      rw [hfc] at hf
      simp only [Prod.mk.injEq] at hf
      obtain ⟨_, hferr⟩ := hf
      subst hferr
      simp [buildModelLoop, newHttpResponseLogModel, hd, hct, hfc]
  | messageRequest v => simp [Event.jsonRejected] at h
  | messageResponse v => simp [Event.jsonRejected] at h
  | other t => simp [Event.jsonRejected] at h

/-- The loop returns the error of a rejected JSON body when every event before it has a log
entry. -/
theorem buildModelLoop_prefix_jsonRejected (lib : Lib) (ev : Event) (err : GoError)
    (post : List Event) (h : ev.jsonRejected lib err = true) :
    ∀ (pre : List Event) (logs : List LogEntry) (w : WebSequenceDiagram),
      (∀ e ∈ pre, (e.logEntry lib).isSome = true) →
      (buildModelLoop lib (pre ++ ev :: post) logs w).1 = .failed err := by
  intro pre
  induction pre with
  | nil =>
    intro logs w _
    exact buildModelLoop_cons_jsonRejected lib ev err h post logs w
  | cons p pre ih =>
    intro logs w hall
    have hp := hall p (List.mem_cons_self _ _)
    have hrest : ∀ e ∈ pre, (e.logEntry lib).isSome = true :=
      fun e he => hall e (List.mem_cons_of_mem _ he)
    obtain ⟨entry, hentry⟩ := Option.isSome_iff_exists.mp hp
    obtain ⟨row, _, hstep⟩ := buildModelLoop_cons_of_logEntry lib p entry hentry
    rw [List.cons_append, hstep]
    exact ih _ _ hrest

/-- When every event has a log entry, the loop runs to completion and the generator it ends
with is the one it started from after the calls that add the rows of the events, in order. -/
theorem buildModelLoop_rows (lib : Lib) :
    ∀ (events : List Event) (logs : List LogEntry) (w : WebSequenceDiagram),
      (∀ e ∈ events, (e.logEntry lib).isSome = true) →
      ∃ (rows : List WebSequenceDiagram.Row) (logs' : List LogEntry) (events' : List Event),
        events.map Event.specRow = rows.map some ∧
          buildModelLoop lib events logs w =
            (.completed logs' (w.performAll (rows.map WebSequenceDiagram.Row.call)),
              events') := by
  intro events
  induction events with
  | nil =>
    intro logs w _
    exact ⟨[], logs, [], rfl, rfl⟩
  | cons ev events ih =>
    intro logs w hall
    have hev := hall ev (List.mem_cons_self _ _)
    have hrest : ∀ e ∈ events, (e.logEntry lib).isSome = true :=
      fun e he => hall e (List.mem_cons_of_mem _ he)
    obtain ⟨entry, hentry⟩ := Option.isSome_iff_exists.mp hev
    obtain ⟨row, hrow, hstep⟩ := buildModelLoop_cons_of_logEntry lib ev entry hentry
    obtain ⟨rows, logs', events', hrows, hl⟩ := ih (logs ++ [entry]) (w.perform row.call) hrest
    refine ⟨row :: rows, logs', ev.afterLoop lib :: events', ?_, ?_⟩
    · simp [hrow, hrows]
    · rw [hstep, hl]
      rfl

/-! ## Results: builder calls of a diagram -/

/-- C13: each of the four calls that add an event returns the diagram with the new event
appended as the last element of `Events`, and with `Title` and `SubTitle` as they were; the
calls take any event and have no error result. -/
theorem diagram_add_event (r : Diagram) :
    (∀ req : HttpRequest,
        r.AddHttpRequest req =
            { Title := r.Title, SubTitle := r.SubTitle,
              Events := r.Events ++ [.httpRequest req] } ∧
          (r.AddHttpRequest req).Events.getLast? = some (.httpRequest req)) ∧
      (∀ req : HttpResponse,
        r.AddHttpResponse req =
            { Title := r.Title, SubTitle := r.SubTitle,
              Events := r.Events ++ [.httpResponse req] } ∧
          (r.AddHttpResponse req).Events.getLast? = some (.httpResponse req)) ∧
      (∀ m : MessageRequest,
        r.AddMessageRequest m =
            { Title := r.Title, SubTitle := r.SubTitle,
              Events := r.Events ++ [.messageRequest m] } ∧
          (r.AddMessageRequest m).Events.getLast? = some (.messageRequest m)) ∧
      (∀ m : MessageResponse,
        r.AddMessageResponse m =
            { Title := r.Title, SubTitle := r.SubTitle,
              Events := r.Events ++ [.messageResponse m] } ∧
          (r.AddMessageResponse m).Events.getLast? = some (.messageResponse m)) := by
  refine ⟨fun _ => ⟨rfl, ?_⟩, fun _ => ⟨rfl, ?_⟩, fun _ => ⟨rfl, ?_⟩, fun _ => ⟨rfl, ?_⟩⟩
  · simp [Diagram.AddHttpRequest]
  · simp [Diagram.AddHttpResponse]
  · simp [Diagram.AddMessageRequest]
  · simp [Diagram.AddMessageResponse]

/-- After builder calls on a new diagram, `Title` is the string last passed to `AddTitle`
and `SubTitle` the string last passed to `AddSubTitle`. -/
theorem applyAll_titles (ops : List Diagram.Op) :
    (NewDiagram.applyAll ops).Title = lastTitle ops ∧
      (NewDiagram.applyAll ops).SubTitle = lastSubTitle ops := by
  induction ops using List.reverseRecOn with
  | nil => exact ⟨rfl, rfl⟩
  | append_singleton ops op ih =>
    obtain ⟨ih1, ih2⟩ := ih
    have hstep : NewDiagram.applyAll (ops ++ [op]) = (NewDiagram.applyAll ops).apply op := by
      simp [Diagram.applyAll, List.foldl_append]
    rw [hstep]
    unfold lastTitle lastSubTitle at *
    cases op <;>
      simp [Diagram.apply, Diagram.AddTitle, Diagram.AddSubTitle, Diagram.AddHttpRequest,
        Diagram.AddHttpResponse, Diagram.AddMessageRequest, Diagram.AddMessageResponse,
        List.reverse_append, List.findSome?_cons, ih1, ih2]

/-- C14: when `BuildModel` succeeds on a diagram obtained from `NewDiagram` by builder calls,
the `Title` of the model is the string last passed to `AddTitle` and its `SubTitle` the
string last passed to `AddSubTitle`, the empty string when there was no such call; `AddTitle`
and `AddSubTitle` change no other field. -/
theorem buildModel_titles (lib : Lib) (ops : List Diagram.Op) (m : DiagramHtmlModel)
    (h : ((NewDiagram.applyAll ops).BuildModel lib).1 = .returned m none) :
    m.Title = lastTitle ops ∧ m.SubTitle = lastSubTitle ops ∧
      (∀ (r : Diagram) (title : String),
        r.AddTitle title = { Title := title, SubTitle := r.SubTitle, Events := r.Events }) ∧
      (∀ (r : Diagram) (subTitle : String),
        r.AddSubTitle subTitle =
          { Title := r.Title, SubTitle := subTitle, Events := r.Events }) := by
  obtain ⟨logs, w, events, status, _, _, _, hm⟩ := buildModel_ok_inv lib _ m h
  obtain ⟨ht, hs⟩ := applyAll_titles ops
  subst hm
  exact ⟨ht, hs, fun _ _ => rfl, fun _ _ => rfl⟩

/-- C14 at `aDiagram().AddTitle("title").AddSubTitle("subTitle")` with an earlier title. -/
theorem buildModel_titles_witness :
    ((NewDiagram.applyAll Sample.titledOps).BuildModel Lib.sample).1 =
        .returned
          { WebSequenceDSL := "", Title := "title", SubTitle := "subTitle",
            BadgeClass := "badge badge-success", StatusCode := 204,
            LogEntries :=
              [⟨"GET http://example.com/abcdef\r\n\r\n", ""⟩, ⟨"HTTP/1.1 204\r\n\r\n", ""⟩] }
          none ∧
      "title" = lastTitle Sample.titledOps ∧ "subTitle" = lastSubTitle Sample.titledOps :=
  ⟨by decide,
    (buildModel_titles Lib.sample Sample.titledOps
      { WebSequenceDSL := "", Title := "title", SubTitle := "subTitle",
        BadgeClass := "badge badge-success", StatusCode := 204,
        LogEntries :=
          [⟨"GET http://example.com/abcdef\r\n\r\n", ""⟩, ⟨"HTTP/1.1 204\r\n\r\n", ""⟩] }
      (by decide)).1,
    (buildModel_titles Lib.sample Sample.titledOps
      { WebSequenceDSL := "", Title := "title", SubTitle := "subTitle",
        BadgeClass := "badge badge-success", StatusCode := 204,
        LogEntries :=
          [⟨"GET http://example.com/abcdef\r\n\r\n", ""⟩, ⟨"HTTP/1.1 204\r\n\r\n", ""⟩] }
      (by decide)).2.1⟩

/-! ## Results: JSON bodies, the description text -/

/-- C17 (amended): when the diagram holds an HTTP event with a non-nil value whose header dump
succeeds, whose `Content-Type` is `application/json` and whose body is read without error, is
not empty and is rejected by `json.Indent`, and every event before it has a log entry (known
type, non-nil HTTP value, header dump, read of the body and JSON indentation all succeed),
`BuildModel` returns the zero model with the error of `json.Indent`, whatever the events
after it. -/
theorem buildModel_json_rejected (lib : Lib) (d : Diagram) (pre post : List Event)
    (ev : Event) (err : GoError) (hsplit : d.Events = pre ++ ev :: post)
    (hpre : ∀ e ∈ pre, (e.logEntry lib).isSome = true)
    (hev : ev.jsonRejected lib err = true) :
    (d.BuildModel lib).1 =
      .returned
        { WebSequenceDSL := "", Title := "", SubTitle := "", BadgeClass := "", StatusCode := 0,
          LogEntries := [] }
        (some err) := by
  have hl :=
    buildModelLoop_prefix_jsonRejected lib ev err post hev pre [] WebSequenceDiagram.zero hpre
  rw [← hsplit] at hl
  have hlen : ¬ d.Events.length = 0 := by
    rw [hsplit]
    simp
  rcases hloop : buildModelLoop lib d.Events [] WebSequenceDiagram.zero with ⟨exit, events⟩
  rw [hloop] at hl
  simp only at hl
  subst hl
  simp [Diagram.BuildModel, hlen, hloop, DiagramHtmlModel.zero]

/-- C17 (amended) at a malformed JSON request followed by a message response. -/
theorem buildModel_json_rejected_witness :
    (Sample.malformedThenResponse.Events =
          [] ++ Event.httpRequest Sample.malformedRequest ::
            [Event.messageResponse
              { Source := "server", Target := "client", Header := "H", Body := "B" }] ∧
        (∀ e ∈ ([] : List Event), (e.logEntry Lib.sample).isSome = true) ∧
        (Event.httpRequest Sample.malformedRequest).jsonRejected Lib.sample
            (.jsonSyntax none "unexpected end of JSON input" 1) = true) ∧
      (Sample.malformedThenResponse.BuildModel Lib.sample).1 =
        .returned
          { WebSequenceDSL := "", Title := "", SubTitle := "", BadgeClass := "",
            StatusCode := 0, LogEntries := [] }
          (some (.jsonSyntax none "unexpected end of JSON input" 1)) :=
  ⟨⟨by decide, by decide, by decide⟩,
    buildModel_json_rejected Lib.sample Sample.malformedThenResponse []
      [Event.messageResponse
        { Source := "server", Target := "client", Header := "H", Body := "B" }]
      (Event.httpRequest Sample.malformedRequest) _ (by decide) (by decide) (by decide)⟩

/-- C17 (as stated) fails: in the sample diagram every header dump succeeds and the second
event is the first one with a rejected JSON body, yet `BuildModel` returns the read error of
the body of the first event, not the error of `json.Indent`. -/
theorem buildModel_read_error_before_json :
    Sample.faultyThenMalformed.Events.map
          (Event.jsonRejected Lib.sample (.jsonSyntax none "unexpected end of JSON input" 1)) =
        [false, true, false] ∧
      (Sample.faultyThenMalformed.BuildModel Lib.sample).1 =
        .returned DiagramHtmlModel.zero (some (.library "unexpected EOF")) ∧
      (Sample.faultyThenMalformed.BuildModel Lib.sample).1 ≠
        .returned DiagramHtmlModel.zero
          (some (.jsonSyntax none "unexpected end of JSON input" 1)) := by
  decide

/-- With content type `application/json`, `formatContent` returns the empty string. -/
theorem formatContent_json_text (lib : Lib) (body : Option ReadCloser) :
    ((formatContent lib body "application/json").1).1 = "" := by
  cases body with
  | none => rfl
  | some stream =>
    simp only [formatContent, ReadAll]
    rcases stream.fault with _ | e
    · by_cases hlen : stream.unread.length > 0
      · rcases (lib.jsonIndent stream.unread).2 with _ | e <;> simp [hlen]
      · simp [hlen]
    · rfl

/-- C18: whenever `formatContent` succeeds with content type `application/json` the text it
returns is empty; so the log entry built for a request or a response whose `Content-Type` is
`application/json` has an empty `Body`. -/
theorem formatContent_json_discards (lib : Lib) (body : Option ReadCloser) (text : String)
    (h : (formatContent lib body "application/json").1 = (text, none)) :
    text = "" ∧
      (∀ (req : Request) (entry : LogEntry),
        req.Header.Get "Content-Type" = "application/json" →
        (newHttpRequestLogModel lib req).1 = (entry, none) → entry.Body = "") ∧
      (∀ (res : Response) (entry : LogEntry),
        res.Header.Get "Content-Type" = "application/json" →
        (newHttpResponseLogModel lib res).1 = (entry, none) → entry.Body = "") := by
  refine ⟨?_, ?_, ?_⟩
  · have h1 := formatContent_json_text lib body
    rw [h] at h1
    exact h1
  · intro req entry hct hok
    have h1 := formatContent_json_text lib req.Body
    rcases hd : lib.dumpRequestOut req with ⟨dump, _ | e⟩
    · rcases hfc : formatContent lib req.Body "application/json" with ⟨⟨t, _ | e⟩, s⟩
      · rw [hfc] at h1
        simp only [newHttpRequestLogModel, hd, hct, hfc, Prod.mk.injEq, and_true] at hok
        rw [← hok]
        exact h1
      · simp [newHttpRequestLogModel, hd, hct, hfc] at hok
    · simp [newHttpRequestLogModel, hd] at hok
  · intro res entry hct hok
    have h1 := formatContent_json_text lib res.Body
    rcases hd : lib.dumpResponse res with ⟨dump, _ | e⟩
    · rcases hfc : formatContent lib res.Body "application/json" with ⟨⟨t, _ | e⟩, s⟩
      · rw [hfc] at h1
        simp only [newHttpResponseLogModel, hd, hct, hfc, Prod.mk.injEq, and_true] at hok
        rw [← hok]
        exact h1
      · simp [newHttpResponseLogModel, hd, hct, hfc] at hok
    · simp [newHttpResponseLogModel, hd] at hok

/-- C18 at the body of the request of `TestDiagram_AddHttpRequest`. -/
theorem formatContent_json_discards_witness :
    (formatContent Lib.sample Sample.jsonRequest.Body "application/json").1 = ("", none) ∧
      (newHttpRequestLogModel Lib.sample Sample.jsonRequest).1 =
        ({ Header := "GET http://example.com/abcdef\r\n\r\n", Body := "" }, none) ∧
      (LogEntry.mk "GET http://example.com/abcdef\r\n\r\n" "").Body = "" :=
  ⟨by decide, by decide,
    (formatContent_json_discards Lib.sample Sample.jsonRequest.Body "" (by decide)).2.1
      Sample.jsonRequest _ (by decide) (by decide)⟩

/-- C19: when `BuildModel` succeeds, the `WebSequenceDSL` field of the model is the empty
string. -/
theorem buildModel_webSequenceDSL (lib : Lib) (d : Diagram) (m : DiagramHtmlModel)
    (h : (d.BuildModel lib).1 = .returned m none) : m.WebSequenceDSL = "" := by
  obtain ⟨logs, w, events, status, _, _, _, hm⟩ := buildModel_ok_inv lib d m h
  subst hm
  rfl

/-- C19 at the diagram of `aDiagram()`, whose generator holds two rows. -/
theorem buildModel_webSequenceDSL_witness :
    (Sample.aDiagram.BuildModel Lib.sample).1 =
        .returned
          { WebSequenceDSL := "", Title := "", SubTitle := "",
            BadgeClass := "badge badge-success", StatusCode := 204,
            LogEntries :=
              [⟨"GET http://example.com/abcdef\r\n\r\n", ""⟩, ⟨"HTTP/1.1 204\r\n\r\n", ""⟩] }
          none ∧
      (buildModelLoop Lib.sample Sample.aDiagram.Events [] WebSequenceDiagram.zero).1 =
        .completed [⟨"GET http://example.com/abcdef\r\n\r\n", ""⟩, ⟨"HTTP/1.1 204\r\n\r\n", ""⟩]
          ⟨"->: (1) GET http://example.com/abcdef\n->>: (2) 204\n", 2⟩ ∧
      (DiagramHtmlModel.mk "" "" "" "badge badge-success" 204
        [⟨"GET http://example.com/abcdef\r\n\r\n", ""⟩,
          ⟨"HTTP/1.1 204\r\n\r\n", ""⟩]).WebSequenceDSL = "" :=
  ⟨by decide, by decide, buildModel_webSequenceDSL Lib.sample Sample.aDiagram _ (by decide)⟩

/-- The rows added by the calls of a list of rows are these rows. -/
theorem rowsOf_map_call (rows : List WebSequenceDiagram.Row) :
    WebSequenceDiagram.rowsOf (rows.map WebSequenceDiagram.Row.call) = rows := by
  induction rows with
  | nil => rfl
  | cons row rows ih =>
    obtain ⟨isResponse, source, target, label⟩ := row
    cases isResponse <;>
      simp [WebSequenceDiagram.Row.call, WebSequenceDiagram.rowsOf, ih]

/-- After any calls, the counter has grown by the number of rows added. -/
theorem performAll_count (calls : List WebSequenceDiagram.Call) :
    ∀ r : WebSequenceDiagram,
      (r.performAll calls).count = r.count + (WebSequenceDiagram.rowsOf calls).length := by
  induction calls with
  | nil =>
    intro r
    simp [WebSequenceDiagram.performAll, WebSequenceDiagram.rowsOf]
  | cons c calls ih =>
    intro r
    have hstep : r.performAll (c :: calls) = (r.perform c).performAll calls := rfl
    rw [hstep, ih]
    cases c with
    | addRequestRow s t l =>
      simp [WebSequenceDiagram.perform, WebSequenceDiagram.AddRequestRow,
        WebSequenceDiagram.addRow, WebSequenceDiagram.rowsOf]
      omega
    | addResponseRow s t l =>
      simp [WebSequenceDiagram.perform, WebSequenceDiagram.AddResponseRow,
        WebSequenceDiagram.addRow, WebSequenceDiagram.rowsOf]
      omega
    | toString =>
      simp [WebSequenceDiagram.perform, WebSequenceDiagram.ToString, WebSequenceDiagram.rowsOf]

/-- C20: when `BuildModel` succeeds, every event has the row the specification describes
(source, target, kind and label), and the loop ends with the generator that the fresh
generator becomes after the calls adding these rows, one per event in event order; its text is
the lines of these rows numbered from 1, and its counter is the number of events. -/
theorem buildModel_generator_rows (lib : Lib) (d : Diagram) (m : DiagramHtmlModel)
    (h : (d.BuildModel lib).1 = .returned m none) :
    ∃ (rows : List WebSequenceDiagram.Row) (logs : List LogEntry) (w : WebSequenceDiagram)
      (events' : List Event),
      d.Events.map Event.specRow = rows.map some ∧
        buildModelLoop lib d.Events [] WebSequenceDiagram.zero = (.completed logs w, events') ∧
        w = WebSequenceDiagram.zero.performAll (rows.map WebSequenceDiagram.Row.call) ∧
        w.ToString = (WebSequenceDiagram.specText rows, w) ∧
        rows.length = d.Events.length ∧ w.count = d.Events.length := by
  obtain ⟨logs, w, events, status, _, hl, _, _⟩ := buildModel_ok_inv lib d m h
  obtain ⟨entries, hmap, _, _⟩ := buildModelLoop_completed_inv lib _ _ _ _ _ _ hl
  have hall : ∀ e ∈ d.Events, (e.logEntry lib).isSome = true := by
    intro e he
    have h1 : e.logEntry lib ∈ d.Events.map (Event.logEntry lib) := List.mem_map_of_mem _ he
    rw [hmap] at h1
    obtain ⟨x, _, hx⟩ := List.mem_map.mp h1
    rw [← hx]
    rfl
  obtain ⟨rows, logs', events', hrows, hl'⟩ :=
    buildModelLoop_rows lib d.Events [] WebSequenceDiagram.zero hall
  have hlen : rows.length = d.Events.length := by
    have h2 := congrArg List.length hrows
    simpa using h2.symm
  have hdata := performAll_data (rows.map WebSequenceDiagram.Row.call) WebSequenceDiagram.zero
  have hcount := performAll_count (rows.map WebSequenceDiagram.Row.call) WebSequenceDiagram.zero
  rw [rowsOf_map_call] at hdata hcount
  refine ⟨rows, logs', _, events', hrows, hl', rfl, ?_, hlen, ?_⟩
  · simp only [WebSequenceDiagram.ToString, WebSequenceDiagram.specText, hdata]
    simp [WebSequenceDiagram.zero]
  · rw [hcount, hlen]
    simp [WebSequenceDiagram.zero]

/-- C20 at the diagram of `TestDiagram_AddMessageRequest`. -/
theorem buildModel_generator_rows_witness :
    (Sample.messageThenNoContent.BuildModel Lib.sample).1 =
        .returned
          { WebSequenceDSL := "", Title := "", SubTitle := "",
            BadgeClass := "badge badge-success", StatusCode := 204,
            LogEntries := [⟨"H", "B"⟩, ⟨"HTTP/1.1 204\r\n\r\n", ""⟩] } none ∧
      (buildModelLoop Lib.sample Sample.messageThenNoContent.Events []
          WebSequenceDiagram.zero).1 =
        .completed [⟨"H", "B"⟩, ⟨"HTTP/1.1 204\r\n\r\n", ""⟩] ⟨"->: (1) H\n->>: (2) 204\n", 2⟩ ∧
      ∃ (rows : List WebSequenceDiagram.Row) (logs : List LogEntry) (w : WebSequenceDiagram)
        (events' : List Event),
        Sample.messageThenNoContent.Events.map Event.specRow = rows.map some ∧
          buildModelLoop Lib.sample Sample.messageThenNoContent.Events []
              WebSequenceDiagram.zero = (.completed logs w, events') ∧
          w = WebSequenceDiagram.zero.performAll (rows.map WebSequenceDiagram.Row.call) ∧
          w.ToString = (WebSequenceDiagram.specText rows, w) ∧
          rows.length = Sample.messageThenNoContent.Events.length ∧
          w.count = Sample.messageThenNoContent.Events.length :=
  ⟨by decide, by decide,
    buildModel_generator_rows Lib.sample Sample.messageThenNoContent
      { WebSequenceDSL := "", Title := "", SubTitle := "",
        BadgeClass := "badge badge-success", StatusCode := 204,
        LogEntries := [⟨"H", "B"⟩, ⟨"HTTP/1.1 204\r\n\r\n", ""⟩] } (by decide)⟩

/-! ## Results: diagrams made by the builder -/

/-- Builder calls keep every event of a known kind. -/
theorem applyAll_known (ops : List Diagram.Op) :
    ∀ r : Diagram, (∀ e ∈ r.Events, e.isKnownKind = true) →
      ∀ e ∈ (r.applyAll ops).Events, e.isKnownKind = true := by
  induction ops with
  | nil => intro r hr; exact hr
  | cons op ops ih =>
    intro r hr
    have hstep : r.applyAll (op :: ops) = (r.apply op).applyAll ops := rfl
    rw [hstep]
    apply ih
    intro e he
    cases op <;>
      simp only [Diagram.apply, Diagram.AddTitle, Diagram.AddSubTitle, Diagram.AddHttpRequest,
        Diagram.AddHttpResponse, Diagram.AddMessageRequest, Diagram.AddMessageResponse,
        List.mem_append, List.mem_singleton] at he
    · exact hr e he
    · exact hr e he
    · rcases he with he | rfl
      · exact hr e he
      · rfl
    · rcases he with he | rfl
      · exact hr e he
      · rfl
    · rcases he with he | rfl
      · exact hr e he
      · rfl
    · rcases he with he | rfl
      · exact hr e he
      · rfl

/-- At an event of a known kind without log entry, the loop returns an error, or the event
has a nil value and the loop panics on the nil pointer (the header dumps being those of `lib`,
which return). -/
theorem buildModelLoop_cons_of_no_logEntry (lib : Lib) (ev : Event)
    (hnone : ev.logEntry lib = none) (hknown : ev.isKnownKind = true) (xs : List Event)
    (logs : List LogEntry) (w : WebSequenceDiagram) :
    (∃ err, (buildModelLoop lib (ev :: xs) logs w).1 = .failed err) ∨
      ((buildModelLoop lib (ev :: xs) logs w).1 = .panicked nilDereference ∧
        ev.hasNilValue = true) := by
  cases ev with
  | httpRequest v =>
    obtain ⟨src, tgt, val⟩ := v
    cases val with
    | none => exact Or.inr ⟨rfl, rfl⟩
    | some req =>
      rcases hm : newHttpRequestLogModel lib req with ⟨⟨entry, err⟩, req'⟩
      cases err with
      | some e => exact Or.inl ⟨e, by simp [buildModelLoop, hm]⟩
      | none => simp [Event.logEntry, hm] at hnone
  | httpResponse v =>
    obtain ⟨src, tgt, val⟩ := v
    cases val with
    | none => exact Or.inr ⟨rfl, rfl⟩
    | some res =>
      rcases hm : newHttpResponseLogModel lib res with ⟨⟨entry, err⟩, res'⟩
      cases err with
      | some e => exact Or.inl ⟨e, by simp [buildModelLoop, hm]⟩
      | none => simp [Event.logEntry, hm] at hnone
  | messageRequest v => simp [Event.logEntry] at hnone
  | messageResponse v => simp [Event.logEntry] at hnone
  | other t => simp [Event.isKnownKind] at hknown

/-- Over events of known kinds the loop runs to completion with every event logged, or
returns an error, or panics on the nil value of an HTTP event (the header dumps being those of
`lib`, which return). -/
theorem buildModelLoop_known (lib : Lib) :
    ∀ (events : List Event) (logs : List LogEntry) (w : WebSequenceDiagram),
      (∀ e ∈ events, e.isKnownKind = true) →
      (∃ logs' w' events', buildModelLoop lib events logs w = (.completed logs' w', events') ∧
          ∀ e ∈ events, (e.logEntry lib).isSome = true) ∨
        (∃ err, (buildModelLoop lib events logs w).1 = .failed err) ∨
        ((buildModelLoop lib events logs w).1 = .panicked nilDereference ∧
          ∃ e ∈ events, e.hasNilValue = true) := by
  intro events
  induction events with
  | nil =>
    intro logs w _
    exact Or.inl ⟨logs, w, [], rfl, by simp⟩
  | cons ev events ih =>
    intro logs w hall
    have hev := hall ev (List.mem_cons_self _ _)
    have hrest : ∀ e ∈ events, e.isKnownKind = true :=
      fun e he => hall e (List.mem_cons_of_mem _ he)
    cases hentry : ev.logEntry lib with
    | none =>
      rcases buildModelLoop_cons_of_no_logEntry lib ev hentry hev events logs w with h | h
      · exact Or.inr (Or.inl h)
      · exact Or.inr (Or.inr ⟨h.1, ev, List.mem_cons_self _ _, h.2⟩)
    | some entry =>
      obtain ⟨row, _, hstep⟩ := buildModelLoop_cons_of_logEntry lib ev entry hentry
      rw [hstep]
      rcases ih (logs ++ [entry]) (w.perform row.call) hrest with h | h | h
      · obtain ⟨logs', w', events', hl, hlogged⟩ := h
        refine Or.inl ⟨logs', w', ev.afterLoop lib :: events', by rw [hl], ?_⟩
        intro e he
        rcases List.mem_cons.mp he with rfl | he
        · rw [hentry]
          rfl
        · exact hlogged e he
      · obtain ⟨err, hl⟩ := h
        exact Or.inr (Or.inl ⟨err, hl⟩)
      · obtain ⟨hl, e, he, hnil⟩ := h
        exact Or.inr (Or.inr ⟨hl, e, List.mem_cons_of_mem _ he, hnil⟩)

/-- On a diagram whose events are of known kinds, `BuildModel` returns, or panics on the nil
value of an HTTP event (the header dumps being those of `lib`, which return). -/
theorem buildModel_known (lib : Lib) (d : Diagram)
    (hknown : ∀ e ∈ d.Events, e.isKnownKind = true) :
    (∃ m err, (d.BuildModel lib).1 = .returned m err) ∨
      ((d.BuildModel lib).1 = .panicked nilDereference ∧
        ∃ e ∈ d.Events, e.hasNilValue = true) := by
  by_cases hlen : d.Events.length = 0
  · exact Or.inl ⟨DiagramHtmlModel.zero, some (.errorsNew "no events are defined"),
      by simp [Diagram.BuildModel, hlen]⟩
  · have hne : d.Events ≠ [] := fun h0 => hlen (by simp [h0])
    rcases buildModelLoop_known lib d.Events [] WebSequenceDiagram.zero hknown with h | h | h
    · obtain ⟨logs, w, events', hl, hlogged⟩ := h
      obtain ⟨_, _, _, hevents⟩ := buildModelLoop_completed_inv lib _ _ _ _ _ _ hl
      have hb := buildModel_of_loop_completed lib d logs w events' hne hl
      obtain ⟨last, hlast⟩ := Option.isSome_iff_exists.mp (List.getLast?_isSome.mpr hne)
      rw [hevents, responseStatus_afterLoop lib d last hlast] at hb
      have hmem := hlogged last (List.mem_of_getLast?_eq_some hlast)
      cases last with
      | httpRequest v => exact Or.inl ⟨_, _, hb⟩
      | messageRequest v => exact Or.inl ⟨_, _, hb⟩
      | messageResponse v => exact Or.inl ⟨_, _, hb⟩
      | other t => exact Or.inl ⟨_, _, hb⟩
      | httpResponse v =>
        obtain ⟨src, tgt, val⟩ := v
        cases val with
        | none => simp [Event.logEntry] at hmem
        | some res => exact Or.inl ⟨_, _, hb⟩
    · obtain ⟨err, hl⟩ := h
      rcases hloop : buildModelLoop lib d.Events [] WebSequenceDiagram.zero with ⟨exit, events'⟩
      rw [hloop] at hl
      simp only at hl
      subst hl
      exact Or.inl ⟨DiagramHtmlModel.zero, some err, by simp [Diagram.BuildModel, hlen, hloop]⟩
    · obtain ⟨hl, hnil⟩ := h
      rcases hloop : buildModelLoop lib d.Events [] WebSequenceDiagram.zero with ⟨exit, events'⟩
      rw [hloop] at hl
      simp only at hl
      subst hl
      exact Or.inr ⟨by simp [Diagram.BuildModel, hlen, hloop], hnil⟩

/-- An HTTP event is the only kind of event that has a `Value`. -/
theorem isHttp_of_hasNilValue (e : Event) (h : e.hasNilValue = true) : e.isHttp = true := by
  cases e <;> simp [Event.hasNilValue] at h <;> rfl

/-- When `BuildModel` returns an error, the model it returns with it is the zero model. -/
theorem buildModel_error_zero (lib : Lib) (d : Diagram) (m : DiagramHtmlModel) (err : GoError)
    (h : (d.BuildModel lib).1 = .returned m (some err)) : m = DiagramHtmlModel.zero := by
  by_cases hlen : d.Events.length = 0
  · simp only [Diagram.BuildModel, hlen, if_true, Outcome.returned.injEq] at h
    exact h.1.symm
  · have hne : d.Events ≠ [] := fun h0 => hlen (by simp [h0])
    rcases hl : buildModelLoop lib d.Events [] WebSequenceDiagram.zero with ⟨exit, events⟩
    cases exit with
    | failed e =>
      simp only [Diagram.BuildModel, hlen, if_false, hl, Outcome.returned.injEq] at h
      exact h.1.symm
    | panicked reason => simp [Diagram.BuildModel, hlen, hl] at h
    | completed logs w =>
      rw [buildModel_of_loop_completed lib d logs w events hne hl] at h
      rcases hs : Diagram.responseStatus { d with Events := events } with
        ⟨status, _ | e⟩ | reason
      · rw [hs] at h
        simp at h
      · rw [hs] at h
        simp only [Outcome.returned.injEq] at h
        exact h.1.symm
      · rw [hs] at h
        simp at h

/-- C21 (amended): a diagram obtained from `NewDiagram` by builder calls holds only events of
the four known kinds, and on it `BuildModel` does not panic with
`"received unknown event type"`; when the diagram holds no HTTP event, `BuildModel` returns
either a model with a nil error or the zero model with an error. -/
theorem buildModel_after_builders (lib : Lib) (ops : List Diagram.Op) :
    (∀ e ∈ (NewDiagram.applyAll ops).Events, e.isKnownKind = true) ∧
      ((NewDiagram.applyAll ops).BuildModel lib).1 ≠ .panicked "received unknown event type" ∧
      ((∀ e ∈ (NewDiagram.applyAll ops).Events, e.isHttp = false) →
        (∃ m, ((NewDiagram.applyAll ops).BuildModel lib).1 = .returned m none) ∨
          ∃ err, ((NewDiagram.applyAll ops).BuildModel lib).1 =
            .returned DiagramHtmlModel.zero (some err)) := by
  have hknown : ∀ e ∈ (NewDiagram.applyAll ops).Events, e.isKnownKind = true :=
    applyAll_known ops NewDiagram (by simp [NewDiagram])
  have hb := buildModel_known lib _ hknown
  refine ⟨hknown, ?_, ?_⟩
  · rcases hb with ⟨m, err, h⟩ | ⟨h, _⟩
    · rw [h]
      simp
    · rw [h]
      simp only [ne_eq, Outcome.panicked.injEq]
      decide
  · intro hmsg
    rcases hb with ⟨m, err, h⟩ | ⟨_, e, he, hnil⟩
    · cases err with
      | none => exact Or.inl ⟨m, h⟩
      | some err =>
        have hm := buildModel_error_zero lib _ m err h
        subst hm
        exact Or.inr ⟨err, h⟩
    · have h1 := isHttp_of_hasNilValue e hnil
      rw [hmsg e he] at h1
      cases h1

/-- C21 (amended) at a message request followed by a message response. -/
theorem buildModel_after_builders_witness :
    (∀ e ∈ (NewDiagram.applyAll Sample.messageOps).Events, e.isHttp = false) ∧
      ((NewDiagram.applyAll Sample.messageOps).BuildModel Lib.sample).1 =
        .returned
          { WebSequenceDSL := "", Title := "", SubTitle := "",
            BadgeClass := "badge badge-success", StatusCode := -1,
            LogEntries := [⟨"ask", "ping"⟩, ⟨"answer", "pong"⟩] } none ∧
      ((∃ m, ((NewDiagram.applyAll Sample.messageOps).BuildModel Lib.sample).1 =
          .returned m none) ∨
        ∃ err, ((NewDiagram.applyAll Sample.messageOps).BuildModel Lib.sample).1 =
          .returned DiagramHtmlModel.zero (some err)) :=
  ⟨by decide, by decide,
    (buildModel_after_builders Lib.sample Sample.messageOps).2.2 (by decide)⟩

/-- C21 (as stated) fails: after `NewDiagram().AddHttpResponse(HttpResponse{})` every event is
of a known kind, yet `BuildModel` returns neither a model nor an error: it panics on the nil
`Value`. -/
theorem buildModel_nil_value_panics :
    (∀ e ∈ (NewDiagram.applyAll Sample.nilResponseOps).Events, e.isKnownKind = true) ∧
      ((NewDiagram.applyAll Sample.nilResponseOps).BuildModel Lib.sample).1 =
        .panicked "runtime error: invalid memory address or nil pointer dereference" := by
  decide

/-! ## Results: body streams after a call -/

/-- Whatever it returns, `formatContent` leaves a non-nil stream with nothing unread. -/
theorem formatContent_stream_after (lib : Lib) (stream : ReadCloser) (contentType : String) :
    (formatContent lib (some stream) contentType).2 =
      some { unread := "", fault := stream.fault } := by
  simp only [formatContent, ReadAll]
  rcases stream.fault with _ | e
  · by_cases hct : contentType = "application/json"
    · by_cases hlen : stream.unread.length > 0
      · rcases (lib.jsonIndent stream.unread).2 with _ | e <;> simp [hct, hlen]
      · simp [hct, hlen]
    · simp [hct]
  · rfl

/-- A call of `formatContent` that succeeds on a non-nil stream has read it without error. -/
theorem formatContent_ok_fault (lib : Lib) (stream : ReadCloser) (contentType text : String)
    (after : Option ReadCloser)
    (h : formatContent lib (some stream) contentType = ((text, none), after)) :
    stream.fault = none := by
  cases hf : stream.fault with
  | none => rfl
  | some e => simp [formatContent, ReadAll, hf] at h

/-- A successful call of `formatContent` leaves the body drained. -/
theorem formatContent_ok_drained (lib : Lib) (body : Option ReadCloser)
    (contentType text : String) (after : Option ReadCloser)
    (h : formatContent lib body contentType = ((text, none), after)) :
    bodyDrained after = true := by
  cases body with
  | none =>
    simp only [formatContent, Prod.mk.injEq] at h
    rw [← h.2]
    rfl
  | some stream =>
    have hfault := formatContent_ok_fault lib stream contentType text after h
    have hafter := formatContent_stream_after lib stream contentType
    rw [h] at hafter
    simp only at hafter
    rw [hafter, hfault]
    rfl

/-- On a drained body `formatContent` returns the empty string and a nil error. -/
theorem formatContent_of_drained (lib : Lib) (body : Option ReadCloser) (contentType : String)
    (h : bodyDrained body = true) : (formatContent lib body contentType).1 = ("", none) := by
  cases body with
  | none => rfl
  | some stream =>
    obtain ⟨unread, fault⟩ := stream
    simp only [bodyDrained, Bool.and_eq_true, beq_iff_eq, Option.isNone_iff_eq_none] at h
    obtain ⟨hu, hf⟩ := h
    subst hu
    subst hf
    by_cases hct : contentType = "application/json"
    · simp [formatContent, ReadAll, hct]
    · simp [formatContent, ReadAll, hct]

/-- An event that the loop has passed over is left with a drained body. -/
theorem afterLoop_bodyDrained (lib : Lib) (ev : Event)
    (h : (ev.logEntry lib).isSome = true) : (ev.afterLoop lib).bodyDrained = true := by
  cases ev with
  | httpRequest v =>
    obtain ⟨src, tgt, val⟩ := v
    cases val with
    | none => rfl
    | some req =>
      rcases hd : lib.dumpRequestOut req with ⟨dump, _ | e⟩
      · rcases hfc : formatContent lib req.Body (req.Header.Get "Content-Type") with
          ⟨⟨text, _ | e⟩, after⟩
        · have hdr := formatContent_ok_drained lib _ _ _ _ hfc
          simp [Event.afterLoop, Event.bodyDrained, newHttpRequestLogModel, hd, hfc, hdr]
        · simp [Event.logEntry, newHttpRequestLogModel, hd, hfc] at h
      · simp [Event.logEntry, newHttpRequestLogModel, hd] at h
  | httpResponse v =>
    obtain ⟨src, tgt, val⟩ := v
    cases val with
    | none => rfl
    | some res =>
      rcases hd : lib.dumpResponse res with ⟨dump, _ | e⟩
      · rcases hfc : formatContent lib res.Body (res.Header.Get "Content-Type") with
          ⟨⟨text, _ | e⟩, after⟩
        · have hdr := formatContent_ok_drained lib _ _ _ _ hfc
          simp [Event.afterLoop, Event.bodyDrained, newHttpResponseLogModel, hd, hfc, hdr]
        · simp [Event.logEntry, newHttpResponseLogModel, hd, hfc] at h
      · simp [Event.logEntry, newHttpResponseLogModel, hd] at h
  | messageRequest v => rfl
  | messageResponse v => rfl
  | other t => rfl

/-- The log entry of an HTTP event with a drained body has an empty `Body`. -/
theorem logEntry_of_bodyDrained (lib : Lib) (ev : Event) (entry : LogEntry)
    (hhttp : ev.isHttp = true) (hdrained : ev.bodyDrained = true)
    (hentry : ev.logEntry lib = some entry) : entry.Body = "" := by
  cases ev with
  | httpRequest v =>
    obtain ⟨src, tgt, val⟩ := v
    cases val with
    | none => simp [Event.logEntry] at hentry
    | some req =>
      have hf := formatContent_of_drained lib req.Body (req.Header.Get "Content-Type")
        (by simpa [Event.bodyDrained] using hdrained)
      rcases hd : lib.dumpRequestOut req with ⟨dump, _ | e⟩
      · rcases hfc : formatContent lib req.Body (req.Header.Get "Content-Type") with
          ⟨⟨text, err⟩, after⟩
        rw [hfc] at hf
        simp only [Prod.mk.injEq] at hf
        obtain ⟨ht, he⟩ := hf
        subst ht
        subst he
        simp only [Event.logEntry, newHttpRequestLogModel, hd, hfc, Option.some.injEq] at hentry
        rw [← hentry]
      · simp [Event.logEntry, newHttpRequestLogModel, hd] at hentry
  | httpResponse v =>
    obtain ⟨src, tgt, val⟩ := v
    cases val with
    | none => simp [Event.logEntry] at hentry
    | some res =>
      have hf := formatContent_of_drained lib res.Body (res.Header.Get "Content-Type")
        (by simpa [Event.bodyDrained] using hdrained)
      rcases hd : lib.dumpResponse res with ⟨dump, _ | e⟩
      · rcases hfc : formatContent lib res.Body (res.Header.Get "Content-Type") with
          ⟨⟨text, err⟩, after⟩
        rw [hfc] at hf
        simp only [Prod.mk.injEq] at hf
        obtain ⟨ht, he⟩ := hf
        subst ht
        subst he
        simp only [Event.logEntry, newHttpResponseLogModel, hd, hfc, Option.some.injEq] at hentry
        rw [← hentry]
      · simp [Event.logEntry, newHttpResponseLogModel, hd] at hentry
  | messageRequest v => simp [Event.isHttp] at hhttp
  | messageResponse v => simp [Event.isHttp] at hhttp
  | other t => simp [Event.isHttp] at hhttp

/-- The events of the diagram after `BuildModel` are the events the loop leaves. -/
theorem buildModel_events_after (lib : Lib) (d : Diagram) :
    (d.BuildModel lib).2.Events =
      (buildModelLoop lib d.Events [] WebSequenceDiagram.zero).2 := by
  by_cases hlen : d.Events.length = 0
  · have hnil : d.Events = [] := List.length_eq_zero.mp hlen
    simp [Diagram.BuildModel, hlen, hnil, buildModelLoop]
  · rcases hl : buildModelLoop lib d.Events [] WebSequenceDiagram.zero with ⟨exit, events'⟩
    simp only [Diagram.BuildModel, hlen, if_false, hl]
    cases exit with
    | failed e => rfl
    | panicked reason => rfl
    | completed logs w =>
      rcases Diagram.responseStatus { d with Events := events' } with
        ⟨status, _ | e⟩ | reason <;> rfl

/-- C22: when `formatContent` succeeds on a non-nil stream, whatever the content type, the
stream is left with nothing unread, so a second call on it returns the empty string and a nil
error; consequently, after a successful `BuildModel` every HTTP event of the diagram has a
body that is nil or drained, and in a second successful `BuildModel` on the same diagram the
log entry of every HTTP event has an empty `Body`. -/
theorem formatContent_drains (lib : Lib) (stream : ReadCloser) (contentType text : String)
    (after : Option ReadCloser)
    (h : formatContent lib (some stream) contentType = ((text, none), after)) :
    after = some { unread := "", fault := none } ∧
      (∀ ct : String, (formatContent lib after ct).1 = ("", none)) ∧
      (∀ (d : Diagram) (m : DiagramHtmlModel), (d.BuildModel lib).1 = .returned m none →
        (∀ e ∈ (d.BuildModel lib).2.Events, e.bodyDrained = true) ∧
          ∀ m2 : DiagramHtmlModel,
            ((d.BuildModel lib).2.BuildModel lib).1 = .returned m2 none →
            ∀ (i : Nat) (e : Event) (entry : LogEntry),
              (d.BuildModel lib).2.Events[i]? = some e → e.isHttp = true →
              m2.LogEntries[i]? = some entry → entry.Body = "") := by
  have hfault := formatContent_ok_fault lib stream contentType text after h
  have hafter := formatContent_stream_after lib stream contentType
  rw [h] at hafter
  simp only at hafter
  rw [hfault] at hafter
  refine ⟨hafter, ?_, ?_⟩
  · intro ct
    exact formatContent_of_drained lib after ct (formatContent_ok_drained lib _ _ _ _ h)
  · intro d m hok
    obtain ⟨logs, w, events, status, _, hl, _, _⟩ := buildModel_ok_inv lib d m hok
    obtain ⟨entries, hmap, _, hevents⟩ := buildModelLoop_completed_inv lib _ _ _ _ _ _ hl
    have hafterEvents : (d.BuildModel lib).2.Events = d.Events.map (Event.afterLoop lib) := by
      rw [buildModel_events_after, hl]
      exact hevents
    have hdrained : ∀ e ∈ (d.BuildModel lib).2.Events, e.bodyDrained = true := by
      intro e he
      rw [hafterEvents] at he
      obtain ⟨e0, he0, rfl⟩ := List.mem_map.mp he
      apply afterLoop_bodyDrained
      have h1 : e0.logEntry lib ∈ d.Events.map (Event.logEntry lib) :=
        List.mem_map_of_mem _ he0
      rw [hmap] at h1
      obtain ⟨x, _, hx⟩ := List.mem_map.mp h1
      rw [← hx]
      rfl
    refine ⟨hdrained, ?_⟩
    intro m2 hok2 i e entry hi hhttp hentry
    obtain ⟨logs2, w2, events2, status2, _, hl2, _, hm2⟩ :=
      buildModel_ok_inv lib (d.BuildModel lib).2 m2 hok2
    obtain ⟨entries2, hmap2, hlogs2, _⟩ := buildModelLoop_completed_inv lib _ _ _ _ _ _ hl2
    simp only [List.nil_append] at hlogs2
    subst hlogs2
    subst hm2
    have h1 := congrArg (fun l => l[i]?) hmap2
    simp only [List.getElem?_map, hi, Option.map_some'] at h1
    have hentry' : logs2[i]? = some entry := hentry
    rw [hentry'] at h1
    simp only [Option.map_some', Option.some.injEq] at h1
    exact logEntry_of_bodyDrained lib e entry hhttp
      (hdrained e (List.getElem?_mem hi)) h1

/-- C22 at a plain-text body of six bytes, and at a diagram whose request carries it. -/
theorem formatContent_drains_witness :
    formatContent Lib.sample (some Sample.plainStream) "text/plain" =
        (("abcdef", none), some { unread := "", fault := none }) ∧
      (formatContent Lib.sample (some { unread := "", fault := none }) "text/plain").1 =
        ("", none) ∧
      (Sample.plainBodyDiagram.BuildModel Lib.sample).1 =
        .returned
          { WebSequenceDSL := "", Title := "", SubTitle := "",
            BadgeClass := "badge badge-success", StatusCode := 204,
            LogEntries :=
              [⟨"POST http://example.com/notes\r\n\r\n", "abcdef"⟩,
                ⟨"HTTP/1.1 204\r\n\r\n", ""⟩] } none ∧
      ((Sample.plainBodyDiagram.BuildModel Lib.sample).2.BuildModel Lib.sample).1 =
        .returned
          { WebSequenceDSL := "", Title := "", SubTitle := "",
            BadgeClass := "badge badge-success", StatusCode := 204,
            LogEntries :=
              [⟨"POST http://example.com/notes\r\n\r\n", ""⟩, ⟨"HTTP/1.1 204\r\n\r\n", ""⟩] }
          none ∧
      ∀ e ∈ (Sample.plainBodyDiagram.BuildModel Lib.sample).2.Events, e.bodyDrained = true :=
  ⟨by decide,
    (formatContent_drains Lib.sample Sample.plainStream "text/plain" "abcdef"
      (some { unread := "", fault := none }) (by decide)).2.1 "text/plain",
    by decide, by decide,
    ((formatContent_drains Lib.sample Sample.plainStream "text/plain" "abcdef"
      (some { unread := "", fault := none }) (by decide)).2.2 Sample.plainBodyDiagram
      { WebSequenceDSL := "", Title := "", SubTitle := "",
        BadgeClass := "badge badge-success", StatusCode := 204,
        LogEntries :=
          [⟨"POST http://example.com/notes\r\n\r\n", "abcdef"⟩,
            ⟨"HTTP/1.1 204\r\n\r\n", ""⟩] } (by decide)).1⟩

end Sequence
